import Mathlib

/-!
Verification of the bore SSH tunnel daemon's tunnel-management runtime.

This development shallowly embeds the Go sources of the repository:
`internal/tunnel/manager.go` (the `Manager` keyed by tunnel name with a
`tunnelHosts` index and an `sshClients` pool), `internal/tunnel/tunnel.go`
(`baseTunnel` and its `SetStatus` state machine), the local/remote tunnel
variants, `internal/state/state.go` (the persisted `State`),
`internal/daemon/daemon.go` (the `tunnel_up` / `tunnel_down` control
handlers) and `internal/reconnect/backoff.go` (`Backoff`).

Go maps are embedded as association lists (`List (κ × α)`); map iteration
order in Go is nondeterministic, the list order is the determinization used
here.  External effects (loading `config.yaml`, the outcome of an SSH
`Connect`, the outcome of binding a tunnel's listener) are supplied by an
explicit environment `Env`.  Timestamps are opaque `Nat` ticks; durations in
`Backoff` are `Int` nanoseconds and the float64 arithmetic of the Go code is
embedded as exact rational arithmetic followed by the truncation (floor on
nonnegative values) that Go's float-to-integer conversion performs.
-/

namespace Bore

/-! ## Association-list primitives used to embed Go maps -/

section KV

variable {κ : Type} {α : Type} [DecidableEq κ]

/-- Lookup in a Go map embedded as an association list (`m[k]`, comma-ok form). -/
def lookupKey : List (κ × α) → κ → Option α
  | [], _ => none
  | (k, v) :: rest, key => if k = key then some v else lookupKey rest key

/-- Go map assignment `m[k] = v`: replace the binding if present, else add it. -/
def insertKey : List (κ × α) → κ → α → List (κ × α)
  | [], key, v => [(key, v)]
  | (k, w) :: rest, key, v =>
    if k = key then (key, v) :: rest else (k, w) :: insertKey rest key v

/-- Go map deletion `delete(m, k)`. -/
def eraseKey : List (κ × α) → κ → List (κ × α)
  | [], _ => []
  | (k, v) :: rest, key =>
    if k = key then eraseKey rest key else (k, v) :: eraseKey rest key

end KV

/-! ## Configuration data (internal/config/sshconfig.go)

`config.TunnelType` is a Go string type with constants `"local"` and
`"remote"`; it is embedded as `String`.  Only the fields the manager reads
are carried (`Host` is used by the older manager variant only; it is kept
for faithfulness to the struct).  Config validation (ports in 1..65535 etc.)
happens outside the operations modelled here.  -/

def TunnelTypeLocal : String := "local"

def TunnelTypeRemote : String := "remote"

/-- config.Tunnel. -/
structure TunnelCfg where
  type : String
  host : String
  localHost : String
  localPort : Int
  remoteHost : String
  remotePort : Int
deriving DecidableEq, Repr

/-- config.Group. -/
structure GroupCfg where
  description : String
  tunnels : List String
deriving DecidableEq, Repr

/-- config.Config restricted to the fields the tunnel manager reads. -/
structure Config where
  tunnels : List (String × TunnelCfg)
  groups : List (String × GroupCfg)
deriving DecidableEq, Repr

/-- config.Config.GetTunnel. -/
def Config.GetTunnel (c : Config) (name : String) : Option TunnelCfg :=
  lookupKey c.tunnels name

/-- Errors raised by the embedded operations; each constructor corresponds to
one `fmt.Errorf` site in the Go sources (wrapping `%w` becomes a nested
argument). -/
inductive MError where
  | configLoadFailed
  | tunnelNotFoundInConfig (name : String)
  | tunnelNotFound (name : String)
  | groupNotFound (name : String)
  | portConflict (port : Int) (incumbent : String)
  | groupPortConflictRunning (port : Int) (running enabling : String)
  | groupPortConflictInternal (port : Int) (first second : String)
  | sshConnectError (host : String)
  | connectFailed (host : String) (inner : MError)
  | unknownTunnelType (t : String)
  | bindFailed (name : String)
  | notRunning (name : String)
  | noAssociatedHost (name : String)
  | startGroupFailed (name : String) (inner : MError)
  | hostRequired
  | reconnectNilTunnel (name : String)
deriving DecidableEq, Repr

/-- config.Config.GetTunnelsForGroup. -/
def Config.GetTunnelsForGroup (c : Config) (groupName : String) :
    Except MError (List String) :=
  match lookupKey c.groups groupName with
  | none => .error (.groupNotFound groupName)
  | some g => .ok g.tunnels

/-- Decidable equality for `Except` results (used to evaluate fixtures). -/
instance {ε α : Type} [DecidableEq ε] [DecidableEq α] :
    DecidableEq (Except ε α) := fun a b =>
  match a, b with
  | .error x, .error y =>
    if h : x = y then isTrue (by rw [h]) else isFalse (by simp [h])
  | .error _, .ok _ => isFalse (by simp)
  | .ok _, .error _ => isFalse (by simp)
  | .ok x, .ok y =>
    if h : x = y then isTrue (by rw [h]) else isFalse (by simp [h])

/-! ## Tunnel runtime objects (internal/tunnel/tunnel.go, local.go, remote.go) -/

/-- tunnel.Status. -/
inductive Status where
  | stopped
  | connecting
  | connected
  | reconnecting
  | error
deriving DecidableEq, Repr

/-- The state of one runtime tunnel object (`baseTunnel`); the wall-clock
stamps `lastConnected` / `lastErrorTime` are not modelled (no claim reads
them).  Both the local and the remote variant share exactly this state; the
variant is recoverable from `config.type`. -/
structure TunnelObj where
  name : String
  config : TunnelCfg
  status : Status
  lastError : Option MError
  reconnectCount : Nat
deriving DecidableEq, Repr

/-- tunnel.newBaseTunnel, as reached through NewLocalTunnel / NewRemoteTunnel. -/
def newBaseTunnel (name : String) (cfg : TunnelCfg) : TunnelObj :=
  { name := name, config := cfg, status := .stopped, lastError := none,
    reconnectCount := 0 }

/-- baseTunnel.SetStatus: records the status, captures a non-nil error, and
increments `reconnectCount` on every transition into `reconnecting`. -/
def TunnelObj.SetStatus (t : TunnelObj) (s : Status) (e : Option MError) :
    TunnelObj :=
  let t1 : TunnelObj :=
    { t with status := s, lastError := match e with | some _ => e | none => t.lastError }
  if s = Status.reconnecting then { t1 with reconnectCount := t1.reconnectCount + 1 }
  else t1

/-- tunnel.Info restricted to the modelled fields. -/
structure Info where
  name : String
  config : TunnelCfg
  status : Status
  error : Option MError
  reconnectCount : Nat
deriving DecidableEq, Repr

/-- baseTunnel.Info. -/
def TunnelObj.Info (t : TunnelObj) : Info :=
  { name := t.name, config := t.config, status := t.status,
    error := t.lastError, reconnectCount := t.reconnectCount }

/-- The SSH client of the pool (`ssh.Client`), reduced to the one bit the
manager reads (`IsConnected`).  `Close` has no modelled effect. -/
structure Client where
  connected : Bool
deriving DecidableEq, Repr

/-- External nondeterminism: the parsed `config.yaml` as `config.Load`
returns it (`none` embeds a load failure), whether an SSH `Connect` to a
given host succeeds, and whether the listener bind in a tunnel's `Start`
succeeds (keyed by tunnel name). -/
structure Env where
  configLoad : Option Config
  connectOK : String → Bool
  startOK : String → Bool

/-- LocalTunnel.Start / RemoteTunnel.Start: set `connecting`, attempt the
(local or peer-side) listener bind, and on success set `connected`, on
failure set `error` and return the bind error. -/
def tunnelStart (env : Env) (t : TunnelObj) : TunnelObj × Option MError :=
  let t1 := t.SetStatus .connecting none
  if env.startOK t.name then (t1.SetStatus .connected none, none)
  else (t1.SetStatus .error (some (.bindFailed t.name)), some (.bindFailed t.name))

/-- LocalTunnel.Stop / RemoteTunnel.Stop: both variants cancel, drain and set
`stopped`, always returning nil. -/
def tunnelStop (t : TunnelObj) : TunnelObj :=
  t.SetStatus .stopped none

/-! ## The tunnel manager (internal/tunnel/manager.go) -/

/-- tunnel.Manager: the tunnel map, the tunnel→host index, and the SSH
client pool.  The mutex serializes all mutating operations; the embedding is
therefore sequential. -/
structure Manager where
  tunnels : List (String × TunnelObj)
  tunnelHosts : List (String × String)
  sshClients : List (String × Client)
deriving DecidableEq, Repr

/-- The manager a fresh `NewManager` returns. -/
def Manager.new : Manager :=
  { tunnels := [], tunnelHosts := [], sshClients := [] }

/-- Does any entry of the tunnel→host index map to `host`?  (The
`usedHosts` set built by `cleanupUnusedClients`.) -/
def hostUsed : List (String × String) → String → Bool
  | [], _ => false
  | (_, h) :: rest, host => if h = host then true else hostUsed rest host

/-- Keep exactly the pool entries whose host some running tunnel still uses. -/
def filterUsed : List (String × Client) → List (String × String) → List (String × Client)
  | [], _ => []
  | (h, c) :: rest, hosts =>
    if hostUsed hosts h then (h, c) :: filterUsed rest hosts
    else filterUsed rest hosts

/-- Manager.cleanupUnusedClients: close and drop every SSH client whose host
no entry of `tunnelHosts` references. -/
def Manager.cleanupUnusedClients (m : Manager) : Manager :=
  { m with sshClients := filterUsed m.sshClients m.tunnelHosts }

/-- The first running tunnel (in iteration order) whose descriptor uses
`port`; the loop body shared by `checkPortConflict` and
`checkGroupPortConflicts`. -/
def firstPortMatch : List (String × TunnelObj) → Int → Option String
  | [], _ => none
  | (n, t) :: rest, port =>
    if t.config.localPort = port then some n else firstPortMatch rest port

/-- Manager.checkPortConflict. -/
def Manager.checkPortConflict (tunnels : List (String × TunnelObj))
    (tunnelCfg : TunnelCfg) : Option MError :=
  (firstPortMatch tunnels tunnelCfg.localPort).map
    (fun n => .portConflict tunnelCfg.localPort n)

/-- The tail of Manager.getOrCreateSSHClient after the pool probe: load the
config, resolve the host, create and connect a new client, and cache it. -/
def Manager.connectNewClient (env : Env) (m : Manager) (hostName : String) :
    Manager × Except MError Client :=
  match env.configLoad with
  | none => (m, .error .configLoadFailed)
  | some _cfg =>
    if env.connectOK hostName then
      let c : Client := { connected := true }
      ({ m with sshClients := insertKey m.sshClients hostName c }, .ok c)
    else (m, .error (.sshConnectError hostName))

/-- Manager.getOrCreateSSHClient: reuse a cached connected client; drop a
cached disconnected one and reconnect. -/
def Manager.getOrCreateSSHClient (env : Env) (m : Manager) (hostName : String) :
    Manager × Except MError Client :=
  match lookupKey m.sshClients hostName with
  | some client =>
    if client.connected then (m, .ok client)
    else
      Manager.connectNewClient env
        { m with sshClients := eraseKey m.sshClients hostName } hostName
  | none => Manager.connectNewClient env m hostName

/-- The body of Manager.StartTunnel after the already-running check: load
the config, fetch the descriptor, check port conflicts, obtain the
transport, construct the variant, start it, and record it.  Note that a
`Start` failure returns without evicting the freshly obtained client. -/
def Manager.startTunnelRest (env : Env) (m : Manager) (name host : String) :
    Manager × Option MError :=
  match env.configLoad with
  | none => (m, some .configLoadFailed)
  | some cfg =>
    match cfg.GetTunnel name with
    | none => (m, some (.tunnelNotFoundInConfig name))
    | some tunnelCfg =>
      match Manager.checkPortConflict m.tunnels tunnelCfg with
      | some e => (m, some e)
      | none =>
        match Manager.getOrCreateSSHClient env m host with
        | (m2, .error e) => (m2, some (.connectFailed host e))
        | (m2, .ok _client) =>
          if tunnelCfg.type = TunnelTypeLocal ∨ tunnelCfg.type = TunnelTypeRemote then
            match tunnelStart env (newBaseTunnel name tunnelCfg) with
            | (_, some e) => (m2, some e)
            | (t1, none) =>
              ({ m2 with tunnels := insertKey m2.tunnels name t1,
                         tunnelHosts := insertKey m2.tunnelHosts name host }, none)
          else (m2, some (.unknownTunnelType tunnelCfg.type))

/-- Manager.StartTunnel: idempotent success when already running on the same
host; a run on a different host is stopped and removed first (with client
cleanup), then the common path `startTunnelRest` runs. -/
def Manager.StartTunnel (env : Env) (m : Manager) (name host : String) :
    Manager × Option MError :=
  match lookupKey m.tunnels name with
  | some _t =>
    if (lookupKey m.tunnelHosts name).getD "" = host then (m, none)
    else
      let m1 : Manager :=
        { m with tunnels := eraseKey m.tunnels name,
                 tunnelHosts := eraseKey m.tunnelHosts name }
      Manager.startTunnelRest env m1.cleanupUnusedClients name host
  | none => Manager.startTunnelRest env m name host

/-- Manager.StopTunnel: `not-running` if absent; otherwise stop (both
variants' `Stop` always returns nil), remove from the map and the index, and
clean up unused clients. -/
def Manager.StopTunnel (m : Manager) (name : String) : Manager × Option MError :=
  match lookupKey m.tunnels name with
  | none => (m, some (.notRunning name))
  | some _t =>
    (Manager.cleanupUnusedClients
      { m with tunnels := eraseKey m.tunnels name,
               tunnelHosts := eraseKey m.tunnelHosts name }, none)

/-- The accumulator loop of Manager.checkGroupPortConflicts: skip
already-running members; an unknown member fails; a member's port is checked
against all running tunnels and against the ports collected so far. -/
def checkGroupPortsAux (m : Manager) (cfg : Config) :
    List String → List (Int × String) → Option MError
  | [], _ => none
  | n :: rest, newPorts =>
    match lookupKey m.tunnels n with
    | some _ => checkGroupPortsAux m cfg rest newPorts
    | none =>
      match cfg.GetTunnel n with
      | none => some (.tunnelNotFound n)
      | some tunnelCfg =>
        match firstPortMatch m.tunnels tunnelCfg.localPort with
        | some runningName =>
          some (.groupPortConflictRunning tunnelCfg.localPort runningName n)
        | none =>
          match lookupKey newPorts tunnelCfg.localPort with
          | some existingName =>
            some (.groupPortConflictInternal tunnelCfg.localPort existingName n)
          | none =>
            checkGroupPortsAux m cfg rest (insertKey newPorts tunnelCfg.localPort n)

/-- Manager.checkGroupPortConflicts. -/
def Manager.checkGroupPortConflicts (m : Manager) (tunnelNames : List String)
    (cfg : Config) : Option MError :=
  checkGroupPortsAux m cfg tunnelNames []

/-- The rollback of Manager.StartGroup: stop, in order, every tunnel the
failing call had started. -/
def rollbackStarted : Manager → List String → Manager
  | m, [] => m
  | m, n :: rest => rollbackStarted (Manager.StopTunnel m n).1 rest

/-- The start loop of Manager.StartGroup.  The Go code tracks the `started`
slice; the error case carries it so the rollback contract can be stated. -/
def Manager.StartGroupAux (env : Env) (m : Manager) (names : List String)
    (host : String) (started : List String) :
    Manager × Option (MError × List String) :=
  match names with
  | [] => (m, none)
  | n :: rest =>
    match Manager.StartTunnel env m n host with
    | (m1, some e) =>
      (rollbackStarted m1 started, some (.startGroupFailed n e, started))
    | (m1, none) => Manager.StartGroupAux env m1 rest host (started ++ [n])

/-- Manager.StartGroup: load config, resolve the group, check port conflicts
en bloc, then start in list order with rollback on the first failure. -/
def Manager.StartGroup (env : Env) (m : Manager) (groupName host : String) :
    Manager × Option MError :=
  match env.configLoad with
  | none => (m, some .configLoadFailed)
  | some cfg =>
    match cfg.GetTunnelsForGroup groupName with
    | .error e => (m, some e)
    | .ok tunnelNames =>
      match m.checkGroupPortConflicts tunnelNames cfg with
      | some e => (m, some e)
      | none =>
        match Manager.StartGroupAux env m tunnelNames host [] with
        | (m1, none) => (m1, none)
        | (m1, some (e, _started)) => (m1, some e)

/-- Manager.ReconnectTunnel: stop the old object in place, evict and
re-establish the host's client, build a fresh object, set `reconnecting`
(which increments its — freshly zeroed — reconnect count; the Go comment
`// Copy reconnect count` is not implemented by any code), and start it.  A
descriptor type outside local/remote would make the Go code call through a
nil interface value (a panic); that branch is embedded as the error
`reconnectNilTunnel`. -/
def Manager.ReconnectTunnel (env : Env) (m : Manager) (name : String) :
    Manager × Option MError :=
  match lookupKey m.tunnels name with
  | none => (m, some (.tunnelNotFound name))
  | some t =>
    match lookupKey m.tunnelHosts name with
    | none => (m, some (.noAssociatedHost name))
    | some host =>
      let tunnelCfg := t.config
      let tStopped := tunnelStop t
      let m1 : Manager := { m with tunnels := insertKey m.tunnels name tStopped }
      let m2 : Manager := { m1 with sshClients := eraseKey m1.sshClients host }
      match Manager.getOrCreateSSHClient env m2 host with
      | (m3, .error e) =>
        let tErr := tStopped.SetStatus .error (some e)
        ({ m3 with tunnels := insertKey m3.tunnels name tErr }, some e)
      | (m3, .ok _client) =>
        if tunnelCfg.type = TunnelTypeLocal ∨ tunnelCfg.type = TunnelTypeRemote then
          let newT := (newBaseTunnel name tunnelCfg).SetStatus .reconnecting none
          match tunnelStart env newT with
          | (t2, some e) =>
            let t3 := t2.SetStatus .error (some e)
            ({ m3 with tunnels := insertKey m3.tunnels name t3 }, some e)
          | (t2, none) =>
            ({ m3 with tunnels := insertKey m3.tunnels name t2 }, none)
        else (m3, some (.reconnectNilTunnel name))

/-- Manager.GetTunnelInfo. -/
def Manager.GetTunnelInfo (m : Manager) (name : String) : Option Info :=
  (lookupKey m.tunnels name).map TunnelObj.Info

/-! ## Persisted state (internal/state/state.go)

The state file is modelled as the parsed value `StateFile`; `Save` is a
full-file overwrite of the marshalled state, `Load` reads the parsed file
back (an `os.IsNotExist` read error returns nil without touching anything;
other read or unmarshal failures also leave the state unchanged and are not
distinguished here).  `start_time` is an opaque tick. -/

/-- state.TunnelState. -/
structure TunnelState where
  name : String
  host : String
deriving DecidableEq, Repr

/-- state.GroupState. -/
structure GroupState where
  name : String
  host : String
deriving DecidableEq, Repr

/-- The JSON document persisted by state.State.Save. -/
structure StateFile where
  startTime : Nat
  activeTunnels : List TunnelState
  activeGroups : List GroupState
deriving DecidableEq, Repr

/-- state.State (the in-memory value; the lock and the path are not data). -/
structure State where
  startTime : Nat
  activeTunnels : List TunnelState
  activeGroups : List GroupState
deriving DecidableEq, Repr

/-- state.NewState: empty lists, `start_time` = the current process start. -/
def State.new (now : Nat) : State :=
  { startTime := now, activeTunnels := [], activeGroups := [] }

/-- The loop body of state.State.AddTunnel: update the host in place when
the name is present, else append. -/
def addTunnelList : List TunnelState → String → String → List TunnelState
  | [], name, host => [{ name := name, host := host }]
  | t :: rest, name, host =>
    if t.name = name then { t with host := host } :: rest
    else t :: addTunnelList rest name host

/-- The loop body of state.State.RemoveTunnel: remove the first entry with
the name. -/
def removeTunnelList : List TunnelState → String → List TunnelState
  | [], _ => []
  | t :: rest, name => if t.name = name then rest else t :: removeTunnelList rest name

/-- The loop body of state.State.AddGroup. -/
def addGroupList : List GroupState → String → String → List GroupState
  | [], name, host => [{ name := name, host := host }]
  | g :: rest, name, host =>
    if g.name = name then { g with host := host } :: rest
    else g :: addGroupList rest name host

/-- The loop body of state.State.RemoveGroup. -/
def removeGroupList : List GroupState → String → List GroupState
  | [], _ => []
  | g :: rest, name => if g.name = name then rest else g :: removeGroupList rest name

/-- state.State.AddTunnel. -/
def State.AddTunnel (s : State) (name host : String) : State :=
  { s with activeTunnels := addTunnelList s.activeTunnels name host }

/-- state.State.RemoveTunnel. -/
def State.RemoveTunnel (s : State) (name : String) : State :=
  { s with activeTunnels := removeTunnelList s.activeTunnels name }

/-- state.State.AddGroup. -/
def State.AddGroup (s : State) (name host : String) : State :=
  { s with activeGroups := addGroupList s.activeGroups name host }

/-- state.State.RemoveGroup. -/
def State.RemoveGroup (s : State) (name : String) : State :=
  { s with activeGroups := removeGroupList s.activeGroups name }

/-- state.State.Clear. -/
def State.Clear (s : State) : State :=
  { s with activeTunnels := [], activeGroups := [] }

/-- state.State.Save: the document written to disk. -/
def State.Save (s : State) : StateFile :=
  { startTime := s.startTime, activeTunnels := s.activeTunnels,
    activeGroups := s.activeGroups }

/-- state.State.Load: a missing file is success without modification;
otherwise unmarshal the whole document over the state and restore the saved
`start_time` copy. -/
def State.Load (s : State) (disk : Option StateFile) : State :=
  match disk with
  | none => s
  | some f =>
    let unmarshalled : State :=
      { startTime := f.startTime, activeTunnels := f.activeTunnels,
        activeGroups := f.activeGroups }
    { unmarshalled with startTime := s.startTime }

/-! ## Control handlers (internal/daemon/daemon.go)

`handleTunnelUp` / `handleTunnelDown` with a well-formed decoded request;
the daemon state is the manager, the in-memory state store and the state
file on disk.  `Save`'s write error is ignored by the Go handlers; the disk
write itself is modelled as succeeding. -/

/-- The daemon-owned mutable state the two tunnel control handlers touch. -/
structure DaemonState where
  manager : Manager
  st : State
  disk : Option StateFile
deriving DecidableEq, Repr

/-- Daemon.handleTunnelUp: require a host, start the tunnel, then record the
intent and save synchronously.  A manager failure reports the error (any
manager mutation that already happened persists). -/
def Daemon.handleTunnelUp (env : Env) (d : DaemonState) (name host : String) :
    DaemonState × Option MError :=
  if host = "" then (d, some .hostRequired)
  else
    match Manager.StartTunnel env d.manager name host with
    | (m1, some e) => ({ d with manager := m1 }, some e)
    | (m1, none) =>
      let st1 := d.st.AddTunnel name host
      ({ manager := m1, st := st1, disk := some st1.Save }, none)

/-- Daemon.handleTunnelDown: stop the tunnel, then remove the intent and
save synchronously. -/
def Daemon.handleTunnelDown (d : DaemonState) (name : String) :
    DaemonState × Option MError :=
  match Manager.StopTunnel d.manager name with
  | (m1, some e) => ({ d with manager := m1 }, some e)
  | (m1, none) =>
    let st1 := d.st.RemoveTunnel name
    ({ manager := m1, st := st1, disk := some st1.Save }, none)

/-! ## Backoff (internal/reconnect/backoff.go)

Durations are `Int` nanoseconds.  `float64(d) * x` followed by the
conversion back to `time.Duration` is embedded as exact rational
multiplication followed by `Int.floor` (Go truncates toward zero, which is
the floor on the nonnegative durations backoffs work with).
`rand.Float64()` is the parameter `u ∈ [0, 1)` of `Next`. -/

/-- reconnect.Backoff. -/
structure Backoff where
  initial : Int
  max : Int
  multiplier : ℚ
  current : Int
deriving DecidableEq, Repr

/-- reconnect.NewBackoff. -/
def Backoff.mkNew (initial max : Int) (multiplier : ℚ) : Backoff :=
  { initial := initial, max := max, multiplier := multiplier, current := initial }

/-- reconnect.Backoff.Next: return `current` plus a jitter of up to 25%,
then advance `current` to `min(max, current * multiplier)`. -/
def Backoff.Next (b : Backoff) (u : ℚ) : Int × Backoff :=
  let duration := b.current
  let jitter : Int := Int.floor ((duration : ℚ) * (1 / 4 : ℚ) * u)
  let advanced : Int := Int.floor ((b.current : ℚ) * b.multiplier)
  let capped : Int := if advanced > b.max then b.max else advanced
  (duration + jitter, { b with current := capped })

/-- reconnect.Backoff.Reset. -/
def Backoff.Reset (b : Backoff) : Backoff :=
  { b with current := b.initial }

/-- reconnect.Backoff.Current. -/
def Backoff.Current (b : Backoff) : Int :=
  b.current

/-- Run a sequence of `Next` calls, one per jitter sample. -/
def Backoff.nexts (b : Backoff) : List ℚ → Backoff
  | [] => b
  | u :: us => ((b.Next u).2).nexts us

/-! ## State-store operation sequences (for the uniqueness invariant) -/

/-- One mutating state-store operation. -/
inductive StateOp where
  | addT (name host : String)
  | removeT (name : String)
  | addG (name host : String)
  | removeG (name : String)
  | clearAll
deriving DecidableEq, Repr

/-- Apply one mutating operation. -/
def State.applyOp (s : State) : StateOp → State
  | .addT n h => s.AddTunnel n h
  | .removeT n => s.RemoveTunnel n
  | .addG n h => s.AddGroup n h
  | .removeG n => s.RemoveGroup n
  | .clearAll => s.Clear

/-- Apply a sequence of mutating operations in order. -/
def State.applyOps (s : State) : List StateOp → State
  | [] => s
  | op :: ops => (s.applyOp op).applyOps ops

/-- Invariant 2 of the spec's data model: no two running tunnels share a
`local-port`. -/
def distinctPorts (tunnels : List (String × TunnelObj)) : Prop :=
  (tunnels.map (fun p => p.2.config.localPort)).Pairwise (· ≠ ·)

/-! ## Concrete fixtures used by counterexamples and witnesses -/

/-- A local-forward descriptor with the given local port. -/
def cfgPort (p : Int) : TunnelCfg :=
  { type := "local", host := "", localHost := "127.0.0.1", localPort := p,
    remoteHost := "127.0.0.1", remotePort := 9000 }

/-- A connected runtime tunnel object with the given name and local port. -/
def runningObj (n : String) (p : Int) : TunnelObj :=
  { name := n, config := cfgPort p, status := .connected, lastError := none,
    reconnectCount := 0 }

/-- Two tunnels running: `a` on `h1` with port 100, `b` on `h2` with port 200. -/
def mgrC1 : Manager :=
  { tunnels := [("a", runningObj "a" 100), ("b", runningObj "b" 200)],
    tunnelHosts := [("a", "h1"), ("b", "h2")],
    sshClients := [("h1", { connected := true }), ("h2", { connected := true })] }

/-- A config in which `a`'s descriptor has moved to port 200 (conflicting
with the running `b`). -/
def cfgC1 : Config :=
  { tunnels := [("a", cfgPort 200), ("b", cfgPort 200)], groups := [] }

/-- The environment serving `cfgC1` with all connects and binds succeeding. -/
def envC1 : Env :=
  { configLoad := some cfgC1, connectOK := fun _ => true, startOK := fun _ => true }

/-- `x` (port 1) and `z` (port 300) running on host `h`. -/
def mgrC2 : Manager :=
  { tunnels := [("x", runningObj "x" 1), ("z", runningObj "z" 300)],
    tunnelHosts := [("x", "h"), ("z", "h")],
    sshClients := [("h", { connected := true })] }

/-- Group `g = [x, y]` where the not-running `y` (port 300) conflicts with
the running `z`. -/
def cfgC2 : Config :=
  { tunnels := [("x", cfgPort 1), ("y", cfgPort 300), ("z", cfgPort 300)],
    groups := [("g", { description := "", tunnels := ["x", "y"] })] }

/-- The environment serving `cfgC2` with all connects and binds succeeding. -/
def envC2 : Env :=
  { configLoad := some cfgC2, connectOK := fun _ => true, startOK := fun _ => true }

/-- Two never-started tunnels `u` and `v` that share port 7. -/
def cfgUV : Config :=
  { tunnels := [("u", cfgPort 7), ("v", cfgPort 7)], groups := [] }

/-- A config in which the not-running `s` collides with the running `t` of
`mgrOne` on port 10. -/
def cfgConf : Config :=
  { tunnels := [("s", cfgPort 10), ("t", cfgPort 10)], groups := [] }

/-- The environment serving `cfgConf`. -/
def envConf : Env :=
  { configLoad := some cfgConf, connectOK := fun _ => true, startOK := fun _ => true }

/-- An environment where connecting succeeds but every tunnel bind fails. -/
def envC3 : Env :=
  { configLoad := some { tunnels := [("t", cfgPort 8080)], groups := [] },
    connectOK := fun _ => true, startOK := fun _ => false }

/-- An environment in which everything about tunnel `w` succeeds. -/
def envC7 : Env :=
  { configLoad := some { tunnels := [("w", cfgPort 80)], groups := [] },
    connectOK := fun _ => true, startOK := fun _ => true }

/-- `w` started from scratch. -/
def mgrC7a : Manager := (Manager.StartTunnel envC7 Manager.new "w" "h").1

/-- `w` after one reconnect. -/
def mgrC7b : Manager := (Manager.ReconnectTunnel envC7 mgrC7a "w").1

/-- `w` after a second reconnect. -/
def mgrC7c : Manager := (Manager.ReconnectTunnel envC7 mgrC7b "w").1

/-- One tunnel `t` (port 10) running on host `h`. -/
def mgrOne : Manager :=
  { tunnels := [("t", runningObj "t" 10)],
    tunnelHosts := [("t", "h")],
    sshClients := [("h", { connected := true })] }

/-- An environment in which everything about tunnel `t` succeeds. -/
def envOK : Env :=
  { configLoad := some { tunnels := [("t", cfgPort 10)], groups := [] },
    connectOK := fun _ => true, startOK := fun _ => true }

/-- An empty daemon state whose process started at tick 5. -/
def dmn0 : DaemonState :=
  { manager := Manager.new, st := State.new 5, disk := none }

/-- A daemon state with `t` running and recorded. -/
def dmnOne : DaemonState :=
  { manager := mgrOne,
    st := { startTime := 5, activeTunnels := [{ name := "t", host := "h" }],
            activeGroups := [] },
    disk := none }

/-- The manager left behind by a failed start from scratch: empty maps but a
leftover connected client for `h`. -/
def mgrPoolH : Manager :=
  { tunnels := [], tunnelHosts := [],
    sshClients := [("h", { connected := true })] }

/-- An environment in which tunnel `p2` fails to bind while `p1` succeeds. -/
def envGF : Env :=
  { configLoad := some { tunnels := [("p1", cfgPort 1), ("p2", cfgPort 2)], groups := [] },
    connectOK := fun _ => true, startOK := fun n => !(n == "p2") }

/-! ## Lemmas about the association-list primitives -/

section KVLemmas

variable {κ : Type} {α : Type} [DecidableEq κ]

theorem lookupKey_insertKey_self (l : List (κ × α)) (k : κ) (v : α) :
    lookupKey (insertKey l k v) k = some v := by
  induction l with
  | nil => simp [insertKey, lookupKey]
  | cons p rest ih =>
    by_cases h : p.1 = k
    · simp [insertKey, h, lookupKey]
    · simpa [insertKey, h, lookupKey] using ih

theorem lookupKey_insertKey_ne (l : List (κ × α)) (k k' : κ) (v : α)
    (h : k' ≠ k) : lookupKey (insertKey l k v) k' = lookupKey l k' := by
  have hk : k ≠ k' := Ne.symm h
  induction l with
  | nil => simp [insertKey, lookupKey, hk]
  | cons p rest ih =>
    by_cases hp : p.1 = k
    · rw [show insertKey (p :: rest) k v = (k, v) :: rest by simp [insertKey, hp]]
      rw [show lookupKey ((k, v) :: rest) k' = lookupKey rest k' by simp [lookupKey, hk]]
      rw [show lookupKey (p :: rest) k' = lookupKey rest k' by
        simp [lookupKey, hp ▸ hk]]
    · by_cases hp' : p.1 = k'
      · simp [insertKey, hp, lookupKey, hp', h]
      · simpa [insertKey, hp, lookupKey, hp'] using ih

theorem lookupKey_eraseKey_self (l : List (κ × α)) (k : κ) :
    lookupKey (eraseKey l k) k = none := by
  induction l with
  | nil => simp [eraseKey, lookupKey]
  | cons p rest ih =>
    by_cases h : p.1 = k
    · simpa [eraseKey, h] using ih
    · simpa [eraseKey, h, lookupKey] using ih

theorem lookupKey_eq_none_iff (l : List (κ × α)) (k : κ) :
    lookupKey l k = none ↔ ∀ p ∈ l, p.1 ≠ k := by
  induction l with
  | nil => simp [lookupKey]
  | cons p rest ih =>
    by_cases h : p.1 = k
    · simp [lookupKey, h]
    · simp [lookupKey, h, ih]

theorem eraseKey_of_lookupKey_none (l : List (κ × α)) (k : κ)
    (h : lookupKey l k = none) : eraseKey l k = l := by
  induction l with
  | nil => simp [eraseKey]
  | cons p rest ih =>
    rw [lookupKey_eq_none_iff] at h
    have hp : p.1 ≠ k := h p (by simp)
    have hrest : eraseKey rest k = rest := by
      apply ih
      rw [lookupKey_eq_none_iff]
      exact fun q hq => h q (by simp [hq])
    simp [eraseKey, hp, hrest]

theorem insertKey_of_lookupKey_none (l : List (κ × α)) (k : κ) (v : α)
    (h : lookupKey l k = none) : insertKey l k v = l ++ [(k, v)] := by
  induction l with
  | nil => simp [insertKey]
  | cons p rest ih =>
    rw [lookupKey_eq_none_iff] at h
    have hp : p.1 ≠ k := h p (by simp)
    have hrest : insertKey rest k v = rest ++ [(k, v)] := by
      apply ih
      rw [lookupKey_eq_none_iff]
      exact fun q hq => h q (by simp [hq])
    simp [insertKey, hp, hrest]

theorem eraseKey_sublist (l : List (κ × α)) (k : κ) :
    List.Sublist (eraseKey l k) l := by
  induction l with
  | nil => simp [eraseKey]
  | cons p rest ih =>
    by_cases h : p.1 = k
    · simpa [eraseKey, h] using List.Sublist.cons p ih
    · simpa [eraseKey, h] using List.Sublist.cons₂ p ih

theorem lookupKey_some_mem_keys (l : List (κ × α)) (k : κ) (v : α)
    (h : lookupKey l k = some v) : k ∈ l.map Prod.fst := by
  induction l with
  | nil => simp [lookupKey] at h
  | cons p rest ih =>
    by_cases hp : p.1 = k
    · simp [hp.symm]
    · simp only [lookupKey, hp, if_false] at h
      simp [ih h]

theorem insertKey_map_eq {β : Type} (f : α → β) (l : List (κ × α)) (k : κ)
    (v t : α) (hl : lookupKey l k = some t) (hf : f v = f t) :
    (insertKey l k v).map (fun p => f p.2) = l.map (fun p => f p.2) := by
  induction l with
  | nil => simp [lookupKey] at hl
  | cons p rest ih =>
    by_cases hp : p.1 = k
    · have hv : p.2 = t := by simpa [lookupKey, hp] using hl
      simp [insertKey, hp, hv ▸ hf]
    · simp only [lookupKey, hp, if_false] at hl
      simp [insertKey, hp, ih hl]

end KVLemmas

/-! ## Lemmas about the persisted-state lists -/

theorem addTunnelList_names_of_mem (l : List TunnelState) (n h : String)
    (hm : n ∈ l.map TunnelState.name) :
    (addTunnelList l n h).map TunnelState.name = l.map TunnelState.name := by
  induction l with
  | nil => simp at hm
  | cons t rest ih =>
    by_cases ht : t.name = n
    · simp [addTunnelList, ht]
    · have hm' : n ∈ rest.map TunnelState.name := by
        rcases List.mem_map.mp hm with ⟨u, hu, hun⟩
        rcases List.mem_cons.mp hu with hu | hu
        · exact absurd (hu ▸ hun) ht
        · exact List.mem_map.mpr ⟨u, hu, hun⟩
      simp [addTunnelList, ht, ih hm']

theorem addTunnelList_names_of_not_mem (l : List TunnelState) (n h : String)
    (hm : n ∉ l.map TunnelState.name) :
    (addTunnelList l n h).map TunnelState.name = l.map TunnelState.name ++ [n] := by
  induction l with
  | nil => simp [addTunnelList]
  | cons t rest ih =>
    have ht : t.name ≠ n := by
      intro hc
      exact hm (by simp [hc])
    have hm' : n ∉ rest.map TunnelState.name := by
      intro hc
      exact hm (by simp [hc])
    simp [addTunnelList, ht, ih hm']

theorem mem_addTunnelList (l : List TunnelState) (n h : String) :
    (⟨n, h⟩ : TunnelState) ∈ addTunnelList l n h := by
  induction l with
  | nil => simp [addTunnelList]
  | cons t rest ih =>
    by_cases ht : t.name = n
    · simp [addTunnelList, ht]
    · simp [addTunnelList, ht, ih]

theorem addTunnelList_idem (l : List TunnelState) (n h : String) :
    addTunnelList (addTunnelList l n h) n h = addTunnelList l n h := by
  induction l with
  | nil => simp [addTunnelList]
  | cons t rest ih =>
    by_cases ht : t.name = n
    · simp [addTunnelList, ht]
    · simp [addTunnelList, ht, ih]

theorem removeTunnelList_sublist (l : List TunnelState) (n : String) :
    List.Sublist (removeTunnelList l n) l := by
  induction l with
  | nil => simp [removeTunnelList]
  | cons t rest ih =>
    by_cases ht : t.name = n
    · simp only [removeTunnelList, ht, if_pos rfl]
      exact List.Sublist.cons t (List.Sublist.refl rest)
    · simpa [removeTunnelList, ht] using List.Sublist.cons₂ t ih

theorem removeTunnelList_not_mem (l : List TunnelState) (n : String)
    (hnd : (l.map TunnelState.name).Nodup) :
    ∀ ts ∈ removeTunnelList l n, ts.name ≠ n := by
  induction l with
  | nil => simp [removeTunnelList]
  | cons t rest ih =>
    have hnd' : (rest.map TunnelState.name).Nodup := (List.nodup_cons.mp hnd).2
    by_cases ht : t.name = n
    · intro ts hts
      have hmem : t.name ∉ rest.map TunnelState.name := (List.nodup_cons.mp hnd).1
      intro hc
      exact hmem (ht ▸ hc ▸ List.mem_map.mpr ⟨ts, by simpa [removeTunnelList, ht] using hts, rfl⟩)
    · intro ts hts
      rw [show removeTunnelList (t :: rest) n = t :: removeTunnelList rest n by
        simp [removeTunnelList, ht]] at hts
      rcases List.mem_cons.mp hts with hts | hts
      · exact hts ▸ ht
      · exact ih hnd' ts hts

theorem addGroupList_names_of_mem (l : List GroupState) (n h : String)
    (hm : n ∈ l.map GroupState.name) :
    (addGroupList l n h).map GroupState.name = l.map GroupState.name := by
  induction l with
  | nil => simp at hm
  | cons g rest ih =>
    by_cases hg : g.name = n
    · simp [addGroupList, hg]
    · have hm' : n ∈ rest.map GroupState.name := by
        rcases List.mem_map.mp hm with ⟨u, hu, hun⟩
        rcases List.mem_cons.mp hu with hu | hu
        · exact absurd (hu ▸ hun) hg
        · exact List.mem_map.mpr ⟨u, hu, hun⟩
      simp [addGroupList, hg, ih hm']

theorem addGroupList_names_of_not_mem (l : List GroupState) (n h : String)
    (hm : n ∉ l.map GroupState.name) :
    (addGroupList l n h).map GroupState.name = l.map GroupState.name ++ [n] := by
  induction l with
  | nil => simp [addGroupList]
  | cons g rest ih =>
    have hg : g.name ≠ n := by
      intro hc
      exact hm (by simp [hc])
    have hm' : n ∉ rest.map GroupState.name := by
      intro hc
      exact hm (by simp [hc])
    simp [addGroupList, hg, ih hm']

theorem removeGroupList_sublist (l : List GroupState) (n : String) :
    List.Sublist (removeGroupList l n) l := by
  induction l with
  | nil => simp [removeGroupList]
  | cons g rest ih =>
    by_cases hg : g.name = n
    · simp only [removeGroupList, hg, if_pos rfl]
      exact List.Sublist.cons g (List.Sublist.refl rest)
    · simpa [removeGroupList, hg] using List.Sublist.cons₂ g ih

theorem addTunnelList_names_nodup (l : List TunnelState) (n h : String)
    (hnd : (l.map TunnelState.name).Nodup) :
    ((addTunnelList l n h).map TunnelState.name).Nodup := by
  by_cases hm : n ∈ l.map TunnelState.name
  · rw [addTunnelList_names_of_mem l n h hm]
    exact hnd
  · rw [addTunnelList_names_of_not_mem l n h hm]
    rw [List.nodup_append]
    exact ⟨hnd, List.nodup_singleton n, by simpa [List.disjoint_singleton] using hm⟩

theorem addGroupList_names_nodup (l : List GroupState) (n h : String)
    (hnd : (l.map GroupState.name).Nodup) :
    ((addGroupList l n h).map GroupState.name).Nodup := by
  by_cases hm : n ∈ l.map GroupState.name
  · rw [addGroupList_names_of_mem l n h hm]
    exact hnd
  · rw [addGroupList_names_of_not_mem l n h hm]
    rw [List.nodup_append]
    exact ⟨hnd, List.nodup_singleton n, by simpa [List.disjoint_singleton] using hm⟩

theorem applyOp_names_nodup (s : State) (op : StateOp)
    (h1 : (s.activeTunnels.map TunnelState.name).Nodup)
    (h2 : (s.activeGroups.map GroupState.name).Nodup) :
    ((s.applyOp op).activeTunnels.map TunnelState.name).Nodup ∧
      ((s.applyOp op).activeGroups.map GroupState.name).Nodup := by
  cases op with
  | addT n h =>
    exact ⟨addTunnelList_names_nodup _ n h h1, h2⟩
  | removeT n =>
    refine ⟨?_, h2⟩
    exact ((removeTunnelList_sublist s.activeTunnels n).map TunnelState.name).nodup h1
  | addG n h =>
    exact ⟨h1, addGroupList_names_nodup _ n h h2⟩
  | removeG n =>
    refine ⟨h1, ?_⟩
    exact ((removeGroupList_sublist s.activeGroups n).map GroupState.name).nodup h2
  | clearAll =>
    simp [State.applyOp, State.Clear]

theorem applyOps_names_nodup (ops : List StateOp) (s : State)
    (h1 : (s.activeTunnels.map TunnelState.name).Nodup)
    (h2 : (s.activeGroups.map GroupState.name).Nodup) :
    ((s.applyOps ops).activeTunnels.map TunnelState.name).Nodup ∧
      ((s.applyOps ops).activeGroups.map GroupState.name).Nodup := by
  induction ops generalizing s with
  | nil => exact ⟨h1, h2⟩
  | cons op ops ih =>
    have h := applyOp_names_nodup s op h1 h2
    exact ih (s.applyOp op) h.1 h.2

/-! ## Frame and preservation lemmas about the manager's operations -/

theorem SetStatus_config (t : TunnelObj) (s : Status) (e : Option MError) :
    (t.SetStatus s e).config = t.config := by
  unfold TunnelObj.SetStatus
  split <;> split <;> rfl

theorem SetStatus_name (t : TunnelObj) (s : Status) (e : Option MError) :
    (t.SetStatus s e).name = t.name := by
  unfold TunnelObj.SetStatus
  split <;> split <;> rfl

theorem tunnelStart_config (env : Env) (t : TunnelObj) :
    ((tunnelStart env t).1).config = t.config := by
  unfold tunnelStart
  split <;> simp [SetStatus_config]

theorem tunnelStop_config (t : TunnelObj) : (tunnelStop t).config = t.config := by
  unfold tunnelStop
  exact SetStatus_config t _ _

theorem connectNewClient_tunnels (env : Env) (m : Manager) (host : String) :
    ((Manager.connectNewClient env m host).1).tunnels = m.tunnels ∧
      ((Manager.connectNewClient env m host).1).tunnelHosts = m.tunnelHosts := by
  unfold Manager.connectNewClient
  split
  · exact ⟨rfl, rfl⟩
  · split <;> exact ⟨rfl, rfl⟩

theorem getOrCreateSSHClient_tunnels (env : Env) (m : Manager) (host : String) :
    ((Manager.getOrCreateSSHClient env m host).1).tunnels = m.tunnels ∧
      ((Manager.getOrCreateSSHClient env m host).1).tunnelHosts = m.tunnelHosts := by
  unfold Manager.getOrCreateSSHClient
  split
  · split
    · exact ⟨rfl, rfl⟩
    · exact connectNewClient_tunnels env _ host
  · exact connectNewClient_tunnels env m host

theorem connectNewClient_ok_pool (env : Env) (m m2 : Manager)
    (host : String) (c : Client)
    (h : Manager.connectNewClient env m host = (m2, Except.ok c)) :
    lookupKey m2.sshClients host = some c ∧ c.connected = true := by
  unfold Manager.connectNewClient at h
  revert h
  split
  · intro h
    simp at h
  · split
    · intro h
      rw [Prod.mk.injEq, Except.ok.injEq] at h
      obtain ⟨h1, h2⟩ := h
      subst h1
      subst h2
      exact ⟨lookupKey_insertKey_self _ _ _, rfl⟩
    · intro h
      simp at h

theorem getOrCreateSSHClient_ok_pool (env : Env) (m m2 : Manager)
    (host : String) (c : Client)
    (h : Manager.getOrCreateSSHClient env m host = (m2, Except.ok c)) :
    lookupKey m2.sshClients host = some c ∧ c.connected = true := by
  unfold Manager.getOrCreateSSHClient at h
  revert h
  split
  · rename_i client hlook
    split
    · rename_i hconn
      intro h
      rw [Prod.mk.injEq, Except.ok.injEq] at h
      obtain ⟨h1, h2⟩ := h
      subst h1
      subst h2
      exact ⟨hlook, hconn⟩
    · intro h
      exact connectNewClient_ok_pool env _ m2 host c h
  · intro h
    exact connectNewClient_ok_pool env m m2 host c h

theorem cleanupUnusedClients_tunnels (m : Manager) :
    (Manager.cleanupUnusedClients m).tunnels = m.tunnels ∧
      (Manager.cleanupUnusedClients m).tunnelHosts = m.tunnelHosts :=
  ⟨rfl, rfl⟩

theorem firstPortMatch_eq_none_iff (l : List (String × TunnelObj)) (port : Int) :
    firstPortMatch l port = none ↔ ∀ q ∈ l, q.2.config.localPort ≠ port := by
  induction l with
  | nil => simp [firstPortMatch]
  | cons p rest ih =>
    by_cases hp : p.2.config.localPort = port
    · simp [firstPortMatch, hp]
    · rw [show firstPortMatch (p :: rest) port = firstPortMatch rest port by
        simp [firstPortMatch, hp]]
      rw [ih]
      constructor
      · intro h q hq
        rcases List.mem_cons.mp hq with hq | hq
        · exact hq ▸ hp
        · exact h q hq
      · intro h q hq
        exact h q (List.mem_cons.mpr (Or.inr hq))

theorem firstPortMatch_isSome (l : List (String × TunnelObj)) (port : Int)
    (q : String × TunnelObj) (hq : q ∈ l) (hp : q.2.config.localPort = port) :
    ∃ n, firstPortMatch l port = some n := by
  induction l with
  | nil => simp at hq
  | cons p rest ih =>
    by_cases hpp : p.2.config.localPort = port
    · exact ⟨p.1, by simp [firstPortMatch, hpp]⟩
    · rcases List.mem_cons.mp hq with hq | hq
      · exact absurd (hq ▸ hp) hpp
      · rcases ih hq with ⟨n, hn⟩
        exact ⟨n, by simpa [firstPortMatch, hpp] using hn⟩

theorem firstPortMatch_some_lookup (l : List (String × TunnelObj)) (port : Int)
    (n : String) (hnd : (l.map Prod.fst).Nodup)
    (h : firstPortMatch l port = some n) :
    ∃ t, lookupKey l n = some t ∧ t.config.localPort = port := by
  induction l with
  | nil => simp [firstPortMatch] at h
  | cons p rest ih =>
    by_cases hpp : p.2.config.localPort = port
    · have hn : p.1 = n := by simpa [firstPortMatch, hpp] using h
      exact ⟨p.2, by simp [lookupKey, hn], hpp⟩
    · have h' : firstPortMatch rest port = some n := by
        simpa [firstPortMatch, hpp] using h
      have hnd' : (rest.map Prod.fst).Nodup := (List.nodup_cons.mp hnd).2
      rcases ih hnd' h' with ⟨t, ht, htp⟩
      have hpn : p.1 ≠ n := by
        intro hc
        exact (List.nodup_cons.mp hnd).1 (hc ▸ lookupKey_some_mem_keys rest n t ht)
      exact ⟨t, by simpa [lookupKey, hpn] using ht, htp⟩

theorem checkPortConflict_eq_none_iff (l : List (String × TunnelObj))
    (tcfg : TunnelCfg) :
    Manager.checkPortConflict l tcfg = none ↔
      firstPortMatch l tcfg.localPort = none := by
  unfold Manager.checkPortConflict
  cases firstPortMatch l tcfg.localPort <;> simp

theorem distinctPorts_sublist (l l' : List (String × TunnelObj))
    (hs : List.Sublist l' l) (h : distinctPorts l) : distinctPorts l' :=
  List.Pairwise.sublist (List.Sublist.map _ hs) h

theorem distinctPorts_eraseKey (l : List (String × TunnelObj)) (k : String)
    (h : distinctPorts l) : distinctPorts (eraseKey l k) :=
  distinctPorts_sublist l _ (eraseKey_sublist l k) h

theorem distinctPorts_insert_fresh (l : List (String × TunnelObj)) (k : String)
    (v : TunnelObj) (hl : lookupKey l k = none)
    (hp : firstPortMatch l v.config.localPort = none)
    (h : distinctPorts l) : distinctPorts (insertKey l k v) := by
  rw [distinctPorts, insertKey_of_lookupKey_none l k v hl, List.map_append,
    List.pairwise_append]
  refine ⟨h, by simp, ?_⟩
  intro a ha b hb
  simp only [List.map_cons, List.map_nil, List.mem_singleton] at hb
  subst hb
  rcases List.mem_map.mp ha with ⟨q, hq, hqa⟩
  exact hqa ▸ (firstPortMatch_eq_none_iff l _).mp hp q hq

theorem distinctPorts_insert_samePort (l : List (String × TunnelObj))
    (k : String) (v t : TunnelObj) (hl : lookupKey l k = some t)
    (hp : v.config.localPort = t.config.localPort)
    (h : distinctPorts l) : distinctPorts (insertKey l k v) := by
  rw [distinctPorts,
    insertKey_map_eq (fun o => o.config.localPort) l k v t hl hp]
  exact h

theorem lookupKey_eraseKey_none {κ α : Type} [DecidableEq κ]
    (l : List (κ × α)) (k k' : κ) (h : lookupKey l k' = none) :
    lookupKey (eraseKey l k) k' = none := by
  rw [lookupKey_eq_none_iff] at h ⊢
  exact fun p hp => h p ((eraseKey_sublist l k).subset hp)

theorem startTunnelRest_distinctPorts (env : Env) (m : Manager)
    (name host : String) (hln : lookupKey m.tunnels name = none)
    (hd : distinctPorts m.tunnels) :
    distinctPorts ((Manager.startTunnelRest env m name host).1).tunnels := by
  unfold Manager.startTunnelRest
  split
  · exact hd
  · rename_i cfg hcfg
    split
    · exact hd
    · rename_i tcfg htcfg
      split
      · exact hd
      · rename_i hconf
        split
        · rename_i m2 e hget
          have hmt := (getOrCreateSSHClient_tunnels env m host).1
          rw [hget] at hmt
          simp only at hmt
          simpa [hmt] using hd
        · rename_i m2 c hget
          have hmt := (getOrCreateSSHClient_tunnels env m host).1
          rw [hget] at hmt
          simp only at hmt
          split
          · split
            · simpa [hmt] using hd
            · rename_i t1 hstart
              have ht1 := tunnelStart_config env (newBaseTunnel name tcfg)
              rw [hstart] at ht1
              simp only at ht1
              have hcfg1 : t1.config = tcfg := by
                simpa [newBaseTunnel] using ht1
              simp only
              apply distinctPorts_insert_fresh
              · rw [hmt]
                exact hln
              · rw [hmt, hcfg1]
                exact (checkPortConflict_eq_none_iff m.tunnels tcfg).mp hconf
              · simpa [hmt] using hd
          · simpa [hmt] using hd

theorem StartTunnel_distinctPorts (env : Env) (m : Manager) (name host : String)
    (hd : distinctPorts m.tunnels) :
    distinctPorts ((Manager.StartTunnel env m name host).1).tunnels := by
  unfold Manager.StartTunnel
  split
  · rename_i t hlook
    split
    · exact hd
    · apply startTunnelRest_distinctPorts
      · simpa [Manager.cleanupUnusedClients] using
          lookupKey_eraseKey_self m.tunnels name
      · simpa [Manager.cleanupUnusedClients] using
          distinctPorts_eraseKey m.tunnels name hd
  · rename_i hlook
    exact startTunnelRest_distinctPorts env m name host hlook hd

theorem StopTunnel_distinctPorts (m : Manager) (name : String)
    (hd : distinctPorts m.tunnels) :
    distinctPorts ((Manager.StopTunnel m name).1).tunnels := by
  unfold Manager.StopTunnel
  split
  · exact hd
  · simpa [Manager.cleanupUnusedClients] using
      distinctPorts_eraseKey m.tunnels name hd

theorem ReconnectTunnel_distinctPorts (env : Env) (m : Manager) (name : String)
    (hd : distinctPorts m.tunnels) :
    distinctPorts ((Manager.ReconnectTunnel env m name).1).tunnels := by
  unfold Manager.ReconnectTunnel
  split
  · exact hd
  · rename_i t hlook
    split
    · exact hd
    · rename_i host hhost
      have hstop : (tunnelStop t).config.localPort = t.config.localPort := by
        rw [tunnelStop_config]
      have hd1 : distinctPorts (insertKey m.tunnels name (tunnelStop t)) :=
        distinctPorts_insert_samePort m.tunnels name (tunnelStop t) t hlook hstop hd
      have hlook1 : lookupKey (insertKey m.tunnels name (tunnelStop t)) name =
          some (tunnelStop t) := lookupKey_insertKey_self m.tunnels name (tunnelStop t)
      dsimp only
      split
      · rename_i m3 e hget
        have hmt := (getOrCreateSSHClient_tunnels env
          { tunnels := insertKey m.tunnels name (tunnelStop t),
            tunnelHosts := m.tunnelHosts,
            sshClients := eraseKey m.sshClients host } host).1
        rw [hget] at hmt
        simp only at hmt
        simp only
        apply distinctPorts_insert_samePort m3.tunnels name _ (tunnelStop t)
        · rw [hmt]
          exact hlook1
        · simp [SetStatus_config, tunnelStop_config]
        · rw [hmt]
          exact hd1
      · rename_i m3 c hget
        have hmt := (getOrCreateSSHClient_tunnels env
          { tunnels := insertKey m.tunnels name (tunnelStop t),
            tunnelHosts := m.tunnelHosts,
            sshClients := eraseKey m.sshClients host } host).1
        rw [hget] at hmt
        simp only at hmt
        split
        · split
          · rename_i t2 e hstart
            have ht2 := tunnelStart_config env
              ((newBaseTunnel name t.config).SetStatus .reconnecting none)
            rw [hstart] at ht2
            simp only at ht2
            have hcfg2 : t2.config = t.config := by
              simp [ht2, SetStatus_config, newBaseTunnel]
            simp only
            apply distinctPorts_insert_samePort m3.tunnels name _ (tunnelStop t)
            · rw [hmt]
              exact hlook1
            · simp [SetStatus_config, hcfg2, tunnelStop_config]
            · rw [hmt]
              exact hd1
          · rename_i t2 hstart
            have ht2 := tunnelStart_config env
              ((newBaseTunnel name t.config).SetStatus .reconnecting none)
            rw [hstart] at ht2
            simp only at ht2
            have hcfg2 : t2.config = t.config := by
              simp [ht2, SetStatus_config, newBaseTunnel]
            simp only
            apply distinctPorts_insert_samePort m3.tunnels name _ (tunnelStop t)
            · rw [hmt]
              exact hlook1
            · simp [hcfg2, tunnelStop_config]
            · rw [hmt]
              exact hd1
        · simp only
          rw [hmt]
          exact hd1

theorem rollbackStarted_distinctPorts (started : List String) (m : Manager)
    (hd : distinctPorts m.tunnels) :
    distinctPorts (rollbackStarted m started).tunnels := by
  induction started generalizing m with
  | nil => exact hd
  | cons n rest ih =>
    exact ih (Manager.StopTunnel m n).1 (StopTunnel_distinctPorts m n hd)

theorem StartGroupAux_distinctPorts (names : List String) (env : Env)
    (m : Manager) (host : String) (started : List String)
    (hd : distinctPorts m.tunnels) :
    distinctPorts ((Manager.StartGroupAux env m names host started).1).tunnels := by
  induction names generalizing m started with
  | nil => exact hd
  | cons n rest ih =>
    unfold Manager.StartGroupAux
    split
    · rename_i m1 e hst
      have hd1 := StartTunnel_distinctPorts env m n host hd
      rw [hst] at hd1
      exact rollbackStarted_distinctPorts started m1 hd1
    · rename_i m1 hst
      have hd1 := StartTunnel_distinctPorts env m n host hd
      rw [hst] at hd1
      exact ih m1 (started ++ [n]) hd1

theorem StartGroup_distinctPorts (env : Env) (m : Manager)
    (groupName host : String) (hd : distinctPorts m.tunnels) :
    distinctPorts ((Manager.StartGroup env m groupName host).1).tunnels := by
  unfold Manager.StartGroup
  split
  · exact hd
  · split
    · exact hd
    · rename_i cfg hcfg names hnames
      split
      · exact hd
      · split
        · rename_i m1 haux
          have h := StartGroupAux_distinctPorts names env m host [] hd
          rw [haux] at h
          exact h
        · rename_i m1 e started haux
          have h := StartGroupAux_distinctPorts names env m host [] hd
          rw [haux] at h
          exact h

theorem StopTunnel_preserves_absent (m : Manager) (x n : String)
    (h : lookupKey m.tunnels n = none) :
    lookupKey ((Manager.StopTunnel m x).1).tunnels n = none := by
  unfold Manager.StopTunnel
  split
  · exact h
  · simpa [Manager.cleanupUnusedClients] using
      lookupKey_eraseKey_none m.tunnels x n h

theorem StopTunnel_self_absent (m : Manager) (x : String) :
    lookupKey ((Manager.StopTunnel m x).1).tunnels x = none := by
  unfold Manager.StopTunnel
  split
  · rename_i h
    exact h
  · simpa [Manager.cleanupUnusedClients] using
      lookupKey_eraseKey_self m.tunnels x

theorem rollbackStarted_preserves_absent (started : List String) (m : Manager)
    (n : String) (h : lookupKey m.tunnels n = none) :
    lookupKey (rollbackStarted m started).tunnels n = none := by
  induction started generalizing m with
  | nil => exact h
  | cons x rest ih =>
    exact ih (Manager.StopTunnel m x).1 (StopTunnel_preserves_absent m x n h)

theorem rollbackStarted_absent (started : List String) (m : Manager)
    (n : String) (hn : n ∈ started) :
    lookupKey (rollbackStarted m started).tunnels n = none := by
  induction started generalizing m with
  | nil => simp at hn
  | cons x rest ih =>
    rcases List.mem_cons.mp hn with hn | hn
    · subst hn
      exact rollbackStarted_preserves_absent rest (Manager.StopTunnel m n).1 n
        (StopTunnel_self_absent m n)
    · exact ih (Manager.StopTunnel m x).1 hn

theorem StartGroupAux_err_absent (names : List String) (env : Env)
    (m : Manager) (host : String) (started : List String) (m1 : Manager)
    (e : MError) (startedOut : List String)
    (h : Manager.StartGroupAux env m names host started =
      (m1, some (e, startedOut))) :
    ∀ n ∈ startedOut, lookupKey m1.tunnels n = none := by
  induction names generalizing m started with
  | nil =>
    unfold Manager.StartGroupAux at h
    simp at h
  | cons x rest ih =>
    unfold Manager.StartGroupAux at h
    revert h
    split
    · rename_i m2 e2 hst
      intro h
      rw [Prod.mk.injEq] at h
      obtain ⟨h1, h2⟩ := h
      rw [Option.some.injEq, Prod.mk.injEq] at h2
      obtain ⟨h2a, h2b⟩ := h2
      subst h1
      subst h2b
      intro n hn
      exact rollbackStarted_absent started m2 n hn
    · rename_i m2 hst
      intro h
      exact ih m2 (started ++ [x]) h

theorem hostUsed_iff (hosts : List (String × String)) (h : String) :
    hostUsed hosts h = true ↔ ∃ p ∈ hosts, p.2 = h := by
  induction hosts with
  | nil => simp [hostUsed]
  | cons q rest ih =>
    by_cases hq : q.2 = h
    · simp [hostUsed, hq]
    · rw [show hostUsed (q :: rest) h = hostUsed rest h by simp [hostUsed, hq]]
      rw [ih]
      constructor
      · rintro ⟨p, hp, hph⟩
        exact ⟨p, List.mem_cons.mpr (Or.inr hp), hph⟩
      · rintro ⟨p, hp, hph⟩
        rcases List.mem_cons.mp hp with hp | hp
        · exact absurd (hp ▸ hph) hq
        · exact ⟨p, hp, hph⟩

theorem mem_filterUsed (clients : List (String × Client))
    (hosts : List (String × String)) (h : String) (c : Client) :
    (h, c) ∈ filterUsed clients hosts ↔
      (h, c) ∈ clients ∧ hostUsed hosts h = true := by
  induction clients with
  | nil => simp [filterUsed]
  | cons q rest ih =>
    obtain ⟨qh, qc⟩ := q
    by_cases hq : hostUsed hosts qh = true
    · rw [show filterUsed ((qh, qc) :: rest) hosts =
          (qh, qc) :: filterUsed rest hosts by simp [filterUsed, hq]]
      constructor
      · intro hm
        rcases List.mem_cons.mp hm with hm | hm
        · rw [Prod.mk.injEq] at hm
          obtain ⟨h1, h2⟩ := hm
          subst h1
          subst h2
          exact ⟨List.mem_cons_self _ _, hq⟩
        · rcases ih.mp hm with ⟨h1, h2⟩
          exact ⟨List.mem_cons.mpr (Or.inr h1), h2⟩
      · rintro ⟨hm, hu⟩
        rcases List.mem_cons.mp hm with hm | hm
        · exact List.mem_cons.mpr (Or.inl hm)
        · exact List.mem_cons.mpr (Or.inr (ih.mpr ⟨hm, hu⟩))
    · rw [show filterUsed ((qh, qc) :: rest) hosts = filterUsed rest hosts by
        simp [filterUsed, hq]]
      rw [ih]
      constructor
      · rintro ⟨h1, h2⟩
        exact ⟨List.mem_cons.mpr (Or.inr h1), h2⟩
      · rintro ⟨hm, hu⟩
        rcases List.mem_cons.mp hm with hm | hm
        · rw [Prod.mk.injEq] at hm
          obtain ⟨h1, h2⟩ := hm
          subst h1
          exact absurd hu hq
        · exact ⟨hm, hu⟩

theorem checkGroupPortsAux_running_isSome (m : Manager) (cfg : Config)
    (names : List String) :
    ∀ (newPorts : List (Int × String)) (n : String) (t : TunnelCfg),
    n ∈ names → lookupKey m.tunnels n = none → cfg.GetTunnel n = some t →
    (∃ q ∈ m.tunnels, q.2.config.localPort = t.localPort) →
    (checkGroupPortsAux m cfg names newPorts).isSome := by
  induction names with
  | nil =>
    intro newPorts n t hn
    simp at hn
  | cons x rest ih =>
    intro newPorts n t hn hrun hget hex
    unfold checkGroupPortsAux
    split
    · rename_i hx
      rcases List.mem_cons.mp hn with hnx | hn'
      · rw [hnx] at hrun
        rw [hrun] at hx
        cases hx
      · exact ih newPorts n t hn' hrun hget hex
    · rename_i hx
      split
      · simp
      · rename_i t0 hget0
        split
        · simp
        · rename_i hfp
          split
          · simp
          · rename_i hnp
            rcases List.mem_cons.mp hn with hnx | hn'
            · subst hnx
              rw [hget] at hget0
              rw [Option.some.injEq] at hget0
              subst hget0
              rcases hex with ⟨q, hq, hqp⟩
              rcases firstPortMatch_isSome m.tunnels t.localPort q hq hqp with ⟨nn, hnn⟩
              rw [hfp] at hnn
              cases hnn
            · exact ih _ n t hn' hrun hget hex

theorem checkGroupPortsAux_booked_isSome (m : Manager) (cfg : Config)
    (names : List String) :
    ∀ (newPorts : List (Int × String)) (n : String) (t : TunnelCfg) (s : String),
    n ∈ names → lookupKey m.tunnels n = none → cfg.GetTunnel n = some t →
    lookupKey newPorts t.localPort = some s →
    (checkGroupPortsAux m cfg names newPorts).isSome := by
  induction names with
  | nil =>
    intro newPorts n t s hn
    simp at hn
  | cons x rest ih =>
    intro newPorts n t s hn hrun hget hbook
    unfold checkGroupPortsAux
    split
    · rename_i hx
      rcases List.mem_cons.mp hn with hnx | hn'
      · rw [hnx] at hrun
        rw [hrun] at hx
        cases hx
      · exact ih newPorts n t s hn' hrun hget hbook
    · rename_i hx
      split
      · simp
      · rename_i t0 hget0
        split
        · simp
        · rename_i hfp
          split
          · simp
          · rename_i hnp
            rcases List.mem_cons.mp hn with hnx | hn'
            · subst hnx
              rw [hget] at hget0
              rw [Option.some.injEq] at hget0
              subst hget0
              rw [hbook] at hnp
              cases hnp
            · by_cases hport : t.localPort = t0.localPort
              · rw [hport] at hbook
                rw [hbook] at hnp
                cases hnp
              · refine ih _ n t s hn' hrun hget ?_
                rw [lookupKey_insertKey_ne newPorts t0.localPort t.localPort x hport]
                exact hbook

theorem checkGroupPortsAux_internal_isSome (m : Manager) (cfg : Config)
    (l1 : List String) :
    ∀ (n1 : String) (rest : List String) (newPorts : List (Int × String))
      (t1 t2 : TunnelCfg) (n2 : String),
    n2 ∈ rest → lookupKey m.tunnels n1 = none → lookupKey m.tunnels n2 = none →
    cfg.GetTunnel n1 = some t1 → cfg.GetTunnel n2 = some t2 →
    t2.localPort = t1.localPort →
    (checkGroupPortsAux m cfg (l1 ++ n1 :: rest) newPorts).isSome := by
  induction l1 with
  | nil =>
    intro n1 rest newPorts t1 t2 n2 hn2 hrun1 hrun2 hget1 hget2 hpp
    rw [List.nil_append]
    unfold checkGroupPortsAux
    split
    · rename_i hx
      rw [hrun1] at hx
      cases hx
    · split
      · simp
      · rename_i t0 hget0
        rw [hget1] at hget0
        rw [Option.some.injEq] at hget0
        subst hget0
        split
        · simp
        · split
          · simp
          · rename_i hfp hnp
            refine checkGroupPortsAux_booked_isSome m cfg rest _ n2 t2 n1
              hn2 hrun2 hget2 ?_
            rw [hpp]
            exact lookupKey_insertKey_self newPorts t1.localPort n1
  | cons a l1 ih =>
    intro n1 rest newPorts t1 t2 n2 hn2 hrun1 hrun2 hget1 hget2 hpp
    rw [List.cons_append]
    unfold checkGroupPortsAux
    split
    · exact ih n1 rest newPorts t1 t2 n2 hn2 hrun1 hrun2 hget1 hget2 hpp
    · split
      · simp
      · split
        · simp
        · split
          · simp
          · exact ih n1 rest _ t1 t2 n2 hn2 hrun1 hrun2 hget1 hget2 hpp

theorem startTunnelRest_success_lookup (env : Env) (m : Manager)
    (name host : String) (m1 : Manager)
    (hs : Manager.startTunnelRest env m name host = (m1, none)) :
    (∃ t, lookupKey m1.tunnels name = some t) ∧
      lookupKey m1.tunnelHosts name = some host := by
  unfold Manager.startTunnelRest at hs
  revert hs
  split
  · intro hs
    simp at hs
  · split
    · intro hs
      simp at hs
    · split
      · intro hs
        simp at hs
      · split
        · intro hs
          simp at hs
        · rename_i m2 c hget
          split
          · split
            · intro hs
              simp at hs
            · rename_i t1 hstart
              intro hs
              rw [Prod.mk.injEq] at hs
              obtain ⟨h1, _⟩ := hs
              subst h1
              exact ⟨⟨t1, lookupKey_insertKey_self m2.tunnels name t1⟩,
                lookupKey_insertKey_self m2.tunnelHosts name host⟩
          · intro hs
            simp at hs

theorem StartTunnel_success_lookup (env : Env) (m : Manager)
    (name host : String) (m1 : Manager)
    (hs : Manager.StartTunnel env m name host = (m1, none)) :
    (∃ t, lookupKey m1.tunnels name = some t) ∧
      (lookupKey m1.tunnelHosts name).getD "" = host := by
  unfold Manager.StartTunnel at hs
  revert hs
  split
  · rename_i t hlook
    split
    · rename_i hsame
      intro hs
      rw [Prod.mk.injEq] at hs
      obtain ⟨h1, _⟩ := hs
      subst h1
      exact ⟨⟨t, hlook⟩, hsame⟩
    · intro hs
      rcases startTunnelRest_success_lookup env _ name host m1 hs with ⟨h1, h2⟩
      exact ⟨h1, by rw [h2]; rfl⟩
  · intro hs
    rcases startTunnelRest_success_lookup env m name host m1 hs with ⟨h1, h2⟩
    exact ⟨h1, by rw [h2]; rfl⟩

/-! ## Backoff lemmas -/

theorem Backoff_Next_mono (b : Backoff) (u : ℚ) (hm : 1 < b.multiplier)
    (h0 : 0 ≤ b.current) (h1 : b.current ≤ b.max) :
    (b.current ≤ ((b.Next u).2).current ∧ ((b.Next u).2).current ≤ b.max) ∧
      0 ≤ ((b.Next u).2).current := by
  have hc0 : (0 : ℚ) ≤ (b.current : ℚ) := by exact_mod_cast h0
  have hle : (b.current : ℚ) ≤ (b.current : ℚ) * b.multiplier :=
    le_mul_of_one_le_right hc0 hm.le
  have hfl : b.current ≤ Int.floor ((b.current : ℚ) * b.multiplier) :=
    Int.le_floor.mpr hle
  unfold Backoff.Next
  dsimp only
  split
  · exact ⟨⟨h1, le_refl _⟩, le_trans h0 h1⟩
  · rename_i hng
    push_neg at hng
    exact ⟨⟨hfl, hng⟩, le_trans h0 hfl⟩

theorem Backoff_Next_current_eq (b : Backoff) (u : ℚ) :
    ((b.Next u).2).current =
      min (Int.floor ((b.current : ℚ) * b.multiplier)) b.max := by
  unfold Backoff.Next
  dsimp only
  split
  · rename_i hgt
    exact (min_eq_right hgt.le).symm
  · rename_i hng
    push_neg at hng
    exact (min_eq_left hng).symm

theorem Backoff_nexts_invariant (us : List ℚ) (b : Backoff)
    (hm : 1 < b.multiplier) (h0 : 0 ≤ b.current) (h1 : b.current ≤ b.max) :
    0 ≤ (b.nexts us).current ∧ (b.nexts us).current ≤ (b.nexts us).max ∧
      (b.nexts us).max = b.max ∧ (b.nexts us).multiplier = b.multiplier := by
  induction us generalizing b with
  | nil => exact ⟨h0, h1, rfl, rfl⟩
  | cons u us ih =>
    have hstep := Backoff_Next_mono b u hm h0 h1
    have hmax : ((b.Next u).2).max = b.max := rfl
    have hmul : ((b.Next u).2).multiplier = b.multiplier := rfl
    have hrec := ih (b.Next u).2 (by rw [hmul]; exact hm) hstep.2
      (by rw [hmax]; exact hstep.1.2)
    have hns : b.nexts (u :: us) = ((b.Next u).2).nexts us := rfl
    rw [hns]
    exact ⟨hrec.1, hrec.2.1, by rw [hrec.2.2.1]; exact hmax,
      by rw [hrec.2.2.2]; exact hmul⟩

/-- C8: for a backoff with `multiplier > 1` and `0 ≤ initial ≤ max`, the
pre-jitter `current` is non-decreasing across `next()` calls and never
exceeds `max`; `next()` returns the old `current` plus a jitter in
`[0, 0.25 * current]` and advances `current` to `min(max, current *
multiplier)`; `reset()` restores `initial`. -/
theorem claim_C8 :
    (∀ (b : Backoff) (u : ℚ),
      1 < b.multiplier → 0 ≤ b.current → b.current ≤ b.max →
      (b.current ≤ ((b.Next u).2).current ∧ ((b.Next u).2).current ≤ b.max) ∧
      ((b.Next u).2).current =
        min (Int.floor ((b.current : ℚ) * b.multiplier)) b.max) ∧
    (∀ (b : Backoff) (u : ℚ), 0 ≤ b.current → 0 ≤ u → u ≤ 1 →
      (b.Next u).1 = b.current + Int.floor ((b.current : ℚ) * (1 / 4 : ℚ) * u) ∧
      0 ≤ Int.floor ((b.current : ℚ) * (1 / 4 : ℚ) * u) ∧
      (Int.floor ((b.current : ℚ) * (1 / 4 : ℚ) * u) : ℚ) ≤
        (1 / 4 : ℚ) * (b.current : ℚ)) ∧
    (∀ b : Backoff, b.Reset.current = b.initial) ∧
    (∀ (i mx : Int) (mult : ℚ) (us : List ℚ) (u : ℚ),
      1 < mult → 0 ≤ i → i ≤ mx →
      ((Backoff.mkNew i mx mult).nexts us).current ≤
        ((((Backoff.mkNew i mx mult).nexts us).Next u).2).current ∧
      ((Backoff.mkNew i mx mult).nexts us).current ≤ mx) := by
  refine ⟨?_, ?_, fun b => rfl, ?_⟩
  · intro b u hm h0 h1
    exact ⟨(Backoff_Next_mono b u hm h0 h1).1, Backoff_Next_current_eq b u⟩
  · intro b u h0 hu0 hu1
    have hc0 : (0 : ℚ) ≤ (b.current : ℚ) := by exact_mod_cast h0
    have hq0 : (0 : ℚ) ≤ (b.current : ℚ) * (1 / 4 : ℚ) :=
      mul_nonneg hc0 (by norm_num)
    refine ⟨rfl, ?_, ?_⟩
    · exact Int.floor_nonneg.mpr (mul_nonneg hq0 hu0)
    · calc (Int.floor ((b.current : ℚ) * (1 / 4 : ℚ) * u) : ℚ)
          ≤ (b.current : ℚ) * (1 / 4 : ℚ) * u := Int.floor_le _
        _ ≤ (b.current : ℚ) * (1 / 4 : ℚ) * 1 :=
          mul_le_mul_of_nonneg_left hu1 hq0
        _ = (1 / 4 : ℚ) * (b.current : ℚ) := by ring
  · intro i mx mult us u hm h0 h1
    have hinv := Backoff_nexts_invariant us (Backoff.mkNew i mx mult) hm h0 h1
    have hmono := Backoff_Next_mono ((Backoff.mkNew i mx mult).nexts us) u
      (by rw [hinv.2.2.2]; exact hm) hinv.1 hinv.2.1
    refine ⟨hmono.1.1, ?_⟩
    have h := hinv.2.1
    rw [hinv.2.2.1] at h
    exact h

/-- C8 witness: the bounds at a concrete backoff (initial 1000 ns, max
10000 ns, multiplier 2) with jitter sample 1/2 and one prior call. -/
theorem claim_C8_witness :
    (((Backoff.mkNew 1000 10000 2).Next (1 / 2)).2.current ≤ 10000 ∧
      ((Backoff.mkNew 1000 10000 2).Next (1 / 2)).1 =
        1000 + Int.floor ((1000 : ℚ) * (1 / 4 : ℚ) * (1 / 2 : ℚ)) ∧
      (Backoff.mkNew 1000 10000 2).Reset.current = 1000 ∧
      ((Backoff.mkNew 1000 10000 2).nexts [1 / 3]).current ≤ 10000) := by
  refine ⟨((claim_C8.1 (Backoff.mkNew 1000 10000 2) (1 / 2)
    (by norm_num [Backoff.mkNew]) (by norm_num [Backoff.mkNew])
    (by norm_num [Backoff.mkNew])).1).2, ?_, ?_, ?_⟩
  · exact ((claim_C8.2.1 (Backoff.mkNew 1000 10000 2) (1 / 2)
      (by norm_num [Backoff.mkNew]) (by norm_num) (by norm_num))).1
  · exact claim_C8.2.2.1 (Backoff.mkNew 1000 10000 2)
  · exact (claim_C8.2.2.2 1000 10000 2 [1 / 3] 0 (by norm_num) (by norm_num)
      (by norm_num)).2

/-- C9: `Load` from an existing state file reads the active-tunnel and
active-group lists from disk but keeps the in-memory `start_time`; `Load`
with no state file succeeds and changes nothing. -/
theorem claim_C9 :
    (∀ (s : State) (f : StateFile),
      (s.Load (some f)).startTime = s.startTime ∧
      (s.Load (some f)).activeTunnels = f.activeTunnels ∧
      (s.Load (some f)).activeGroups = f.activeGroups) ∧
    (∀ s : State, s.Load none = s) :=
  ⟨fun _s _f => ⟨rfl, rfl, rfl⟩, fun _s => rfl⟩

/-- C10: starting from a fresh state, every sequence of add/remove/clear
operations keeps at most one active-tunnel entry per tunnel name and at
most one active-group entry per group name; adding an existing name updates
the entry in place (the name multiset is unchanged) instead of appending. -/
theorem claim_C10 :
    (∀ (now : Nat) (ops : List StateOp),
      (((State.new now).applyOps ops).activeTunnels.map TunnelState.name).Nodup ∧
      (((State.new now).applyOps ops).activeGroups.map GroupState.name).Nodup) ∧
    (∀ (l : List TunnelState) (n h : String), n ∈ l.map TunnelState.name →
      (addTunnelList l n h).map TunnelState.name = l.map TunnelState.name) ∧
    (∀ (l : List GroupState) (n h : String), n ∈ l.map GroupState.name →
      (addGroupList l n h).map GroupState.name = l.map GroupState.name) := by
  refine ⟨?_, addTunnelList_names_of_mem, addGroupList_names_of_mem⟩
  intro now ops
  exact applyOps_names_nodup ops (State.new now) (by simp [State.new])
    (by simp [State.new])

/-- C10 witness: a concrete operation sequence keeps names unique, and a
concrete in-place host update leaves the name list unchanged. -/
theorem claim_C10_witness :
    ((((State.new 0).applyOps
        [.addT "a" "h1", .addT "a" "h2", .addG "g" "h1", .removeT "b"]
      ).activeTunnels.map TunnelState.name).Nodup) ∧
    ((addTunnelList [{ name := "a", host := "h1" }] "a" "h2").map
        TunnelState.name =
      ([{ name := "a", host := "h1" }] : List TunnelState).map
        TunnelState.name) ∧
    ((addGroupList [{ name := "g", host := "h1" }] "g" "h2").map
        GroupState.name =
      ([{ name := "g", host := "h1" }] : List GroupState).map
        GroupState.name) :=
  ⟨(claim_C10.1 0 [.addT "a" "h1", .addT "a" "h2", .addG "g" "h1",
      .removeT "b"]).1,
    claim_C10.2.1 [{ name := "a", host := "h1" }] "a" "h2" (by decide),
    claim_C10.2.2 [{ name := "g", host := "h1" }] "g" "h2" (by decide)⟩

/-- C4: a successful `tunnel_up(name, host)` leaves `(name, host)` in the
persisted active-tunnel list and writes the state to disk synchronously; a
successful `tunnel_down(name)` leaves no active-tunnel entry named `name`
and writes the state to disk (uniqueness of names, an invariant of every
reachable state, is a hypothesis of the second part). -/
theorem claim_C4 :
    (∀ (env : Env) (d : DaemonState) (name host : String) (d1 : DaemonState),
      Daemon.handleTunnelUp env d name host = (d1, none) →
      ({ name := name, host := host } : TunnelState) ∈ d1.st.activeTunnels ∧
      d1.disk = some d1.st.Save) ∧
    (∀ (d : DaemonState) (name : String) (d1 : DaemonState),
      (d.st.activeTunnels.map TunnelState.name).Nodup →
      Daemon.handleTunnelDown d name = (d1, none) →
      (∀ ts ∈ d1.st.activeTunnels, ts.name ≠ name) ∧
      d1.disk = some d1.st.Save) := by
  constructor
  · intro env d name host d1 h
    unfold Daemon.handleTunnelUp at h
    revert h
    split
    · intro h
      simp at h
    · split
      · intro h
        simp at h
      · rename_i m1 hst
        intro h
        rw [Prod.mk.injEq] at h
        obtain ⟨h1, _⟩ := h
        subst h1
        exact ⟨mem_addTunnelList d.st.activeTunnels name host, rfl⟩
  · intro d name d1 hnd h
    unfold Daemon.handleTunnelDown at h
    revert h
    split
    · intro h
      simp at h
    · rename_i m1 hst
      intro h
      rw [Prod.mk.injEq] at h
      obtain ⟨h1, _⟩ := h
      subst h1
      exact ⟨removeTunnelList_not_mem d.st.activeTunnels name hnd, rfl⟩

/-- C4 witness: a concrete successful `tunnel_up` followed by a concrete
successful `tunnel_down` on another daemon state. -/
theorem claim_C4_witness :
    (({ name := "t", host := "h" } : TunnelState) ∈
        ((Daemon.handleTunnelUp envOK dmn0 "t" "h").1).st.activeTunnels ∧
      ((Daemon.handleTunnelUp envOK dmn0 "t" "h").1).disk =
        some ((Daemon.handleTunnelUp envOK dmn0 "t" "h").1).st.Save) ∧
    ((∀ ts ∈ ((Daemon.handleTunnelDown dmnOne "t").1).st.activeTunnels,
        ts.name ≠ "t") ∧
      ((Daemon.handleTunnelDown dmnOne "t").1).disk =
        some ((Daemon.handleTunnelDown dmnOne "t").1).st.Save) :=
  ⟨claim_C4.1 envOK dmn0 "t" "h" (Daemon.handleTunnelUp envOK dmn0 "t" "h").1
      (by decide),
    claim_C4.2 dmnOne "t" (Daemon.handleTunnelDown dmnOne "t").1 (by decide)
      (by decide)⟩

/-- C5: `stop_tunnel` on an absent name fails `not-running` and changes
nothing; on a running name it succeeds, removes the tunnel from the map and
the host index, and the surviving pool is exactly the old pool restricted
to hosts some remaining tunnel still references (everything else is closed
and removed). -/
theorem claim_C5 :
    (∀ (m : Manager) (name : String),
      lookupKey m.tunnels name = none →
      Manager.StopTunnel m name = (m, some (.notRunning name))) ∧
    (∀ (m : Manager) (name : String) (t : TunnelObj),
      lookupKey m.tunnels name = some t →
      ∃ m1, Manager.StopTunnel m name = (m1, none) ∧
        lookupKey m1.tunnels name = none ∧
        lookupKey m1.tunnelHosts name = none ∧
        m1.tunnels = eraseKey m.tunnels name ∧
        m1.tunnelHosts = eraseKey m.tunnelHosts name ∧
        (∀ (h : String) (c : Client),
          (h, c) ∈ m1.sshClients ↔
            (h, c) ∈ m.sshClients ∧ ∃ p ∈ m1.tunnelHosts, p.2 = h)) := by
  constructor
  · intro m name hln
    unfold Manager.StopTunnel
    rw [hln]
  · intro m name t hlt
    refine ⟨Manager.cleanupUnusedClients
      { m with tunnels := eraseKey m.tunnels name,
               tunnelHosts := eraseKey m.tunnelHosts name }, ?_, ?_, ?_, rfl, rfl, ?_⟩
    · unfold Manager.StopTunnel
      rw [hlt]
    · exact lookupKey_eraseKey_self m.tunnels name
    · exact lookupKey_eraseKey_self m.tunnelHosts name
    · intro h c
      rw [show (Manager.cleanupUnusedClients
          { m with tunnels := eraseKey m.tunnels name,
                   tunnelHosts := eraseKey m.tunnelHosts name }).sshClients =
          filterUsed m.sshClients (eraseKey m.tunnelHosts name) from rfl]
      rw [mem_filterUsed m.sshClients (eraseKey m.tunnelHosts name) h c]
      rw [hostUsed_iff (eraseKey m.tunnelHosts name) h]
      exact Iff.rfl

/-- C5 witness: stopping the absent `x` fails and changes nothing; stopping
the running `t` removes it and evicts the now-unreferenced client for `h`. -/
theorem claim_C5_witness :
    (Manager.StopTunnel mgrOne "x" = (mgrOne, some (.notRunning "x"))) ∧
    (∃ m1, Manager.StopTunnel mgrOne "t" = (m1, none) ∧
      lookupKey m1.tunnels "t" = none ∧
      lookupKey m1.tunnelHosts "t" = none ∧
      m1.tunnels = eraseKey mgrOne.tunnels "t" ∧
      m1.tunnelHosts = eraseKey mgrOne.tunnelHosts "t" ∧
      (∀ (h : String) (c : Client),
        (h, c) ∈ m1.sshClients ↔
          (h, c) ∈ mgrOne.sshClients ∧ ∃ p ∈ m1.tunnelHosts, p.2 = h)) :=
  ⟨claim_C5.1 mgrOne "x" (by decide),
    claim_C5.2 mgrOne "t" (runningObj "t" 10) (by decide)⟩

/-- C6: starting a tunnel already running on the same host succeeds and
changes nothing, and a successful `tunnel_up(n, h)` is idempotent: running
the identical request again returns success and the identical daemon
state. -/
theorem claim_C6 :
    (∀ (env : Env) (m : Manager) (name host : String) (t : TunnelObj),
      lookupKey m.tunnels name = some t →
      (lookupKey m.tunnelHosts name).getD "" = host →
      Manager.StartTunnel env m name host = (m, none)) ∧
    (∀ (env : Env) (d : DaemonState) (name host : String) (d1 : DaemonState),
      Daemon.handleTunnelUp env d name host = (d1, none) →
      Daemon.handleTunnelUp env d1 name host = (d1, none)) := by
  have part1 : ∀ (env : Env) (m : Manager) (name host : String) (t : TunnelObj),
      lookupKey m.tunnels name = some t →
      (lookupKey m.tunnelHosts name).getD "" = host →
      Manager.StartTunnel env m name host = (m, none) := by
    intro env m name host t hlt hhost
    simp [Manager.StartTunnel, hlt, hhost]
  refine ⟨part1, ?_⟩
  intro env d name host d1 h
  have hne : ¬host = "" := by
    intro hc
    unfold Daemon.handleTunnelUp at h
    rw [if_pos hc] at h
    simp at h
  unfold Daemon.handleTunnelUp at h
  rw [if_neg hne] at h
  revert h
  split
  · intro h
    simp at h
  · rename_i m1 hst
    intro h
    rw [Prod.mk.injEq] at h
    obtain ⟨h1, _⟩ := h
    subst h1
    rcases StartTunnel_success_lookup env d.manager name host m1 hst with
      ⟨⟨t, hlt⟩, hhost⟩
    have hst2 : Manager.StartTunnel env m1 name host = (m1, none) :=
      part1 env m1 name host t hlt hhost
    have hidem : (d.st.AddTunnel name host).AddTunnel name host =
        d.st.AddTunnel name host := by
      unfold State.AddTunnel
      dsimp only
      rw [addTunnelList_idem d.st.activeTunnels name host]
    unfold Daemon.handleTunnelUp
    rw [if_neg hne]
    dsimp only
    rw [hst2]
    dsimp only
    rw [hidem]

/-- C6 witness: a concrete re-start on the same host is a no-op, and a
concrete successful `tunnel_up` done twice equals doing it once. -/
theorem claim_C6_witness :
    (Manager.StartTunnel envOK mgrOne "t" "h" = (mgrOne, none)) ∧
    (Daemon.handleTunnelUp envOK
        (Daemon.handleTunnelUp envOK dmn0 "t" "h").1 "t" "h" =
      ((Daemon.handleTunnelUp envOK dmn0 "t" "h").1, none)) :=
  ⟨claim_C6.1 envOK mgrOne "t" "h" (runningObj "t" 10) (by decide) (by decide),
    claim_C6.2 envOK dmn0 "t" "h" (Daemon.handleTunnelUp envOK dmn0 "t" "h").1
      (by decide)⟩

/-- C1 (amended): when `name` is not currently running, a port conflict
between `name`'s configured descriptor and some other running tunnel makes
`start_tunnel` fail with `port-conflict` naming a running incumbent and
leave the manager unchanged.  (When `name` IS running on a different host,
the incumbent check still fires but `name` has already been stopped and
removed, so the state is not unchanged — see the counterexample.)  Every
manager operation preserves local-port distinctness, so no two running
tunnels ever share a local port. -/
theorem claim_C1_amended :
    (∀ (env : Env) (m : Manager) (name host : String) (cfg : Config)
      (tcfg : TunnelCfg),
      env.configLoad = some cfg →
      cfg.GetTunnel name = some tcfg →
      lookupKey m.tunnels name = none →
      (m.tunnels.map Prod.fst).Nodup →
      (∃ q ∈ m.tunnels, q.2.config.localPort = tcfg.localPort) →
      ∃ incumbent t,
        Manager.StartTunnel env m name host =
          (m, some (.portConflict tcfg.localPort incumbent)) ∧
        lookupKey m.tunnels incumbent = some t ∧
        t.config.localPort = tcfg.localPort ∧ incumbent ≠ name) ∧
    (∀ (env : Env) (m : Manager) (n h : String), distinctPorts m.tunnels →
      distinctPorts ((Manager.StartTunnel env m n h).1).tunnels) ∧
    (∀ (m : Manager) (n : String), distinctPorts m.tunnels →
      distinctPorts ((Manager.StopTunnel m n).1).tunnels) ∧
    (∀ (env : Env) (m : Manager) (g h : String), distinctPorts m.tunnels →
      distinctPorts ((Manager.StartGroup env m g h).1).tunnels) ∧
    (∀ (env : Env) (m : Manager) (n : String), distinctPorts m.tunnels →
      distinctPorts ((Manager.ReconnectTunnel env m n).1).tunnels) := by
  refine ⟨?_, StartTunnel_distinctPorts, StopTunnel_distinctPorts,
    StartGroup_distinctPorts, ReconnectTunnel_distinctPorts⟩
  intro env m name host cfg tcfg hcl hgt hln hnd hex
  obtain ⟨q, hq, hqp⟩ := hex
  obtain ⟨nn, hnn⟩ := firstPortMatch_isSome m.tunnels tcfg.localPort q hq hqp
  obtain ⟨t, hlt, htp⟩ := firstPortMatch_some_lookup m.tunnels tcfg.localPort
    nn hnd hnn
  refine ⟨nn, t, ?_, hlt, htp, ?_⟩
  · unfold Manager.StartTunnel
    rw [hln]
    unfold Manager.startTunnelRest
    rw [hcl]
    dsimp only
    rw [hgt]
    dsimp only
    rw [show Manager.checkPortConflict m.tunnels tcfg =
        some (.portConflict tcfg.localPort nn) by
      unfold Manager.checkPortConflict
      rw [hnn]
      rfl]
  · intro hc
    rw [hc] at hlt
    rw [hln] at hlt
    exact Option.noConfusion hlt

/-- C1 counterexample: tunnel `a` runs on `h1` while its descriptor in the
current config has moved to port 200, conflicting with the running `b`.
`start_tunnel("a", "h2")` fails with `port-conflict` naming `b` — but the
claim's frame clause is false: `a` was stopped and removed and `h1`'s
transport was evicted before the conflict check fired. -/
theorem claim_C1_counterexample :
    envC1.configLoad = some cfgC1 ∧
    cfgC1.GetTunnel "a" = some (cfgPort 200) ∧
    lookupKey mgrC1.tunnels "b" = some (runningObj "b" 200) ∧
    (runningObj "b" 200).config.localPort = (cfgPort 200).localPort ∧
    ("b" : String) ≠ "a" ∧
    (Manager.StartTunnel envC1 mgrC1 "a" "h2").2 =
      some (.portConflict 200 "b") ∧
    lookupKey mgrC1.tunnels "a" = some (runningObj "a" 100) ∧
    lookupKey ((Manager.StartTunnel envC1 mgrC1 "a" "h2").1).tunnels "a" =
      none ∧
    lookupKey mgrC1.sshClients "h1" = some { connected := true } ∧
    lookupKey ((Manager.StartTunnel envC1 mgrC1 "a" "h2").1).sshClients "h1" =
      none := by
  decide

/-- C1 witness: the amended statement at concrete inputs: the not-running
`s` collides with the running `t` on port 10 and the call fails leaving the
manager untouched; the preservation conjuncts at the same fixtures. -/
theorem claim_C1_witness :
    (∃ incumbent t,
      Manager.StartTunnel envConf mgrOne "s" "h" =
        (mgrOne, some (.portConflict (cfgPort 10).localPort incumbent)) ∧
      lookupKey mgrOne.tunnels incumbent = some t ∧
      t.config.localPort = (cfgPort 10).localPort ∧ incumbent ≠ "s") ∧
    distinctPorts ((Manager.StartTunnel envOK mgrOne "t" "h").1).tunnels ∧
    distinctPorts ((Manager.StopTunnel mgrOne "t").1).tunnels ∧
    distinctPorts ((Manager.StartGroup envC2 mgrC2 "g" "h").1).tunnels ∧
    distinctPorts ((Manager.ReconnectTunnel envOK mgrOne "t").1).tunnels :=
  ⟨claim_C1_amended.1 envConf mgrOne "s" "h" cfgConf (cfgPort 10) (by decide)
      (by decide) (by decide) (by decide) (by decide),
    claim_C1_amended.2.1 envOK mgrOne "t" "h" (by unfold distinctPorts; decide),
    claim_C1_amended.2.2.1 mgrOne "t" (by unfold distinctPorts; decide),
    claim_C1_amended.2.2.2.1 envC2 mgrC2 "g" "h" (by unfold distinctPorts; decide),
    claim_C1_amended.2.2.2.2 envOK mgrOne "t" (by unfold distinctPorts; decide)⟩

/-- C2 (amended): a port conflict detected by the en-bloc check (a
not-yet-running group member against a running tunnel, or two
not-yet-running members with one port) makes `start_group` return the error
with the manager completely unchanged, so no tunnel of the group is started
by the call (group members that were already running beforehand stay
running — the original "none running afterwards" is refuted by the
counterexample); and when the start loop fails partway, every tunnel the
call had started is stopped (absent from the tunnel map) when the error is
returned. -/
theorem claim_C2_amended :
    (∀ (env : Env) (m : Manager) (g host : String) (cfg : Config)
      (names : List String) (e : MError),
      env.configLoad = some cfg →
      cfg.GetTunnelsForGroup g = .ok names →
      m.checkGroupPortConflicts names cfg = some e →
      Manager.StartGroup env m g host = (m, some e)) ∧
    (∀ (m : Manager) (cfg : Config) (names : List String) (n : String)
      (t : TunnelCfg),
      n ∈ names → lookupKey m.tunnels n = none → cfg.GetTunnel n = some t →
      (∃ q ∈ m.tunnels, q.2.config.localPort = t.localPort) →
      (m.checkGroupPortConflicts names cfg).isSome) ∧
    (∀ (m : Manager) (cfg : Config) (l1 : List String) (n1 : String)
      (rest : List String) (t1 t2 : TunnelCfg) (n2 : String),
      n2 ∈ rest → lookupKey m.tunnels n1 = none →
      lookupKey m.tunnels n2 = none →
      cfg.GetTunnel n1 = some t1 → cfg.GetTunnel n2 = some t2 →
      t2.localPort = t1.localPort →
      (m.checkGroupPortConflicts (l1 ++ n1 :: rest) cfg).isSome) ∧
    (∀ (env : Env) (m : Manager) (names : List String) (host : String)
      (started : List String) (m1 : Manager) (e : MError)
      (startedOut : List String),
      Manager.StartGroupAux env m names host started =
        (m1, some (e, startedOut)) →
      ∀ n ∈ startedOut, lookupKey m1.tunnels n = none) := by
  refine ⟨?_, ?_, ?_, ?_⟩
  · intro env m g host cfg names e hcl hgg hchk
    unfold Manager.StartGroup
    rw [hcl]
    dsimp only
    rw [hgg]
    dsimp only
    rw [hchk]
  · intro m cfg names n t hn hrun hget hex
    exact checkGroupPortsAux_running_isSome m cfg names [] n t hn hrun hget hex
  · intro m cfg l1 n1 rest t1 t2 n2 hn2 hr1 hr2 hg1 hg2 hpp
    exact checkGroupPortsAux_internal_isSome m cfg l1 n1 rest [] t1 t2 n2
      hn2 hr1 hr2 hg1 hg2 hpp
  · intro env m names host started m1 e startedOut h
    exact StartGroupAux_err_absent names env m host started m1 e startedOut h

/-- C2 counterexample: group `g = [x, y]` where the not-running `y`
conflicts with the running `z`.  `start_group` returns the en-bloc error
and starts nothing — but the group member `x`, already running before the
call, is still running afterwards, refuting "none of the group's tunnels is
running afterwards". -/
theorem claim_C2_counterexample :
    cfgC2.GetTunnelsForGroup "g" = .ok ["x", "y"] ∧
    envC2.configLoad = some cfgC2 ∧
    (Manager.StartGroup envC2 mgrC2 "g" "h").2 =
      some (.groupPortConflictRunning 300 "z" "y") ∧
    lookupKey ((Manager.StartGroup envC2 mgrC2 "g" "h").1).tunnels "x" =
      some (runningObj "x" 1) := by
  decide

/-- C2 witness: the amended statement at concrete inputs — the en-bloc
rejection of `g` leaves `mgrC2` unchanged; the two conflict conditions are
detected; and after a concrete partway failure (`p2` fails to bind) the
started `p1` is absent from the final tunnel map. -/
theorem claim_C2_witness :
    (Manager.StartGroup envC2 mgrC2 "g" "h" =
      (mgrC2, some (.groupPortConflictRunning 300 "z" "y"))) ∧
    (mgrC2.checkGroupPortConflicts ["x", "y"] cfgC2).isSome ∧
    (Manager.new.checkGroupPortConflicts (([] : List String) ++ "u" :: ["v"])
      cfgUV).isSome ∧
    lookupKey ({ tunnels := [], tunnelHosts := [], sshClients := [] } :
      Manager).tunnels "p1" = none :=
  ⟨claim_C2_amended.1 envC2 mgrC2 "g" "h" cfgC2 ["x", "y"]
      (.groupPortConflictRunning 300 "z" "y") (by decide) (by decide)
      (by decide),
    claim_C2_amended.2.1 mgrC2 cfgC2 ["x", "y"] "y" (cfgPort 300) (by decide)
      (by decide) (by decide) (by decide),
    claim_C2_amended.2.2.1 Manager.new cfgUV [] "u" ["v"] (cfgPort 7)
      (cfgPort 7) "v" (by decide) (by decide) (by decide) (by decide)
      (by decide) (by decide),
    claim_C2_amended.2.2.2 envGF Manager.new ["p1", "p2"] "h" []
      { tunnels := [], tunnelHosts := [], sshClients := [] }
      (.startGroupFailed "p2" (.bindFailed "p2")) ["p1"] (by decide) "p1"
      (by decide)⟩

/-- C3 (amended): when the variant's `start` fails, the tunnel is not
recorded in the tunnel map — but the transport obtained or created for the
host is NOT evicted: it stays in the pool even when no other running tunnel
references that host, so a failed `start_tunnel` can leave a transport with
no referring tunnel (the eager-eviction invariant is not preserved on this
path; eviction happens only on later stops or disconnects). -/
theorem claim_C3_amended :
    ∀ (env : Env) (m m2 : Manager) (name host : String) (cfg : Config)
      (tcfg : TunnelCfg) (c : Client),
    env.configLoad = some cfg →
    cfg.GetTunnel name = some tcfg →
    lookupKey m.tunnels name = none →
    Manager.checkPortConflict m.tunnels tcfg = none →
    Manager.getOrCreateSSHClient env m host = (m2, Except.ok c) →
    (tcfg.type = TunnelTypeLocal ∨ tcfg.type = TunnelTypeRemote) →
    env.startOK name = false →
    Manager.StartTunnel env m name host = (m2, some (.bindFailed name)) ∧
    lookupKey m2.tunnels name = none ∧
    m2.tunnels = m.tunnels ∧
    lookupKey m2.sshClients host = some c ∧
    c.connected = true := by
  intro env m m2 name host cfg tcfg c hcl hgt hln hchk hget htype hsf
  have hms := (getOrCreateSSHClient_tunnels env m host).1
  rw [hget] at hms
  simp only at hms
  have hpool := getOrCreateSSHClient_ok_pool env m m2 host c hget
  refine ⟨?_, by rw [hms]; exact hln, hms, hpool.1, hpool.2⟩
  unfold Manager.StartTunnel
  rw [hln]
  unfold Manager.startTunnelRest
  rw [hcl]
  dsimp only
  rw [hgt]
  dsimp only
  rw [hchk]
  dsimp only
  rw [hget]
  dsimp only
  rw [if_pos htype]
  unfold tunnelStart
  rw [show (newBaseTunnel name tcfg).name = name from rfl]
  simp [hsf]

/-- C3 counterexample: from an empty manager, `start_tunnel("t", "h")`
creates a transport for `h`, the bind fails, the error is returned — and
the pool still holds the transport for `h` although no tunnel at all is
running, refuting the claimed eviction and the claimed preservation of the
no-orphan-transport invariant. -/
theorem claim_C3_counterexample :
    (Manager.StartTunnel envC3 Manager.new "t" "h").2 =
      some (.bindFailed "t") ∧
    ((Manager.StartTunnel envC3 Manager.new "t" "h").1).tunnels = [] ∧
    ((Manager.StartTunnel envC3 Manager.new "t" "h").1).tunnelHosts = [] ∧
    lookupKey ((Manager.StartTunnel envC3 Manager.new "t" "h").1).sshClients
      "h" = some { connected := true } := by
  decide

/-- C3 witness: the amended statement at the concrete fixture where `t`
fails to bind. -/
theorem claim_C3_witness :
    Manager.StartTunnel envC3 Manager.new "t" "h" =
      (mgrPoolH, some (.bindFailed "t")) ∧
    lookupKey mgrPoolH.tunnels "t" = none ∧
    mgrPoolH.tunnels = Manager.new.tunnels ∧
    lookupKey mgrPoolH.sshClients "h" = some { connected := true } ∧
    ({ connected := true } : Client).connected = true :=
  claim_C3_amended envC3 Manager.new mgrPoolH "t" "h"
    { tunnels := [("t", cfgPort 8080)], groups := [] } (cfgPort 8080)
    { connected := true } (by decide) (by decide) (by decide) (by decide)
    (by decide) (by decide) (by decide)

/-- C7: `SetStatus` does increment `reconnect_count` on every transition
into `reconnecting` — but `ReconnectTunnel` builds the replacement object
with a fresh zero count (the Go comment "Copy reconnect count" has no
implementing code), so after a second reconnect the reported count is still
1 where the claim requires 2: the count reported after a reconnect is NOT
one greater than the count reported before it. -/
theorem claim_C7_bug :
    (∀ (t : TunnelObj) (e : Option MError),
      (t.SetStatus .reconnecting e).reconnectCount = t.reconnectCount + 1) ∧
    (Manager.GetTunnelInfo mgrC7a "w").map Info.reconnectCount = some 0 ∧
    (Manager.GetTunnelInfo mgrC7b "w").map Info.reconnectCount = some 1 ∧
    (Manager.ReconnectTunnel envC7 mgrC7b "w").2 = none ∧
    mgrC7c = (Manager.ReconnectTunnel envC7 mgrC7b "w").1 ∧
    (Manager.GetTunnelInfo mgrC7c "w").map Info.reconnectCount = some 1 := by
  refine ⟨?_, by decide, by decide, by decide, rfl, by decide⟩
  intro t e
  unfold TunnelObj.SetStatus
  cases e <;> simp

end Bore
